import Mathlib

/-!
Verification development for the ADPC Gender Equality Monitor scraper
(file src/hdx/scraper/adpc_gem/pipeline.py).

The pipeline's core is embedded shallowly:

* a CSV row (a Python dict produced by csv.DictReader) is an association
  list from column-name strings to string values;
* Python exceptions raised by int(...) during a transformation are
  modelled by Option: none means the function raised, some xs means it
  returned xs;
* Python sorted(..., key=...) is modelled by a stable insertion sort on
  (key, element) pairs (any stable sort computes the same list Python's
  stable sort does); a key function that raises (because int(...)
  failed on a field) makes the whole sort return none, exactly as a
  raised ValueError propagates out of sorted in Python;
* Python int(s) on a string is modelled by pyInt?: strip whitespace,
  optional sign, then a non-empty run of decimal digits;
* Python string comparison is code-point lexicographic; it is modelled
  by charsLt on the underlying character lists.

Definitions keep the source's names (transform_gii_national and so on)
modulo Lean naming rules.
-/

/-- A CSV/JSON-properties row: association list from column names to values,
as produced by csv.DictReader (keys unique, insertion ordered). -/
abbrev Row := List (String × String)

/-- Python dict row.get(key): some value when the key is present, none when
absent. First match wins (dict keys are unique). -/
def rowGet : Row → String → Option String
  | [], _ => none
  | (k, v) :: rest, key => if key = k then some v else rowGet rest key

/-- Python dict row.get(key, default). -/
def rowGetD (row : Row) (key dflt : String) : String :=
  (rowGet row key).getD dflt

/-- Accumulate the value of a non-empty run of decimal digits; none when a
non-digit character appears. -/
def digitsValAux : List Char → Nat → Option Nat
  | [], acc => some acc
  | c :: cs, acc =>
    if c.isDigit then digitsValAux cs (acc * 10 + (c.toNat - 48)) else none

/-- Strip leading and trailing whitespace from a character list, as Python
int() strips whitespace from its argument. -/
def trimChars (cs : List Char) : List Char :=
  ((cs.dropWhile Char.isWhitespace).reverse.dropWhile Char.isWhitespace).reverse

/-- Python int(s) on a string s: strip whitespace, accept an optional sign
followed by a non-empty run of decimal digits; none models a raised
ValueError. -/
def pyInt? (s : String) : Option Int :=
  match trimChars s.data with
  | [] => none
  | '+' :: c :: cs => (digitsValAux (c :: cs) 0).map (fun n => (n : Int))
  | '-' :: c :: cs => (digitsValAux (c :: cs) 0).map (fun n => -(n : Int))
  | c :: cs => (digitsValAux (c :: cs) 0).map (fun n => (n : Int))

/-- Code-point lexicographic strict comparison of character lists: how Python
compares strings. -/
def charsLt : List Char → List Char → Bool
  | [], [] => false
  | [], _ :: _ => true
  | _ :: _, [] => false
  | a :: as, b :: bs =>
    if a.toNat < b.toNat then true
    else if b.toNat < a.toNat then false
    else charsLt as bs

/-- Python strict string comparison a < b. -/
def strLt (a b : String) : Bool := charsLt a.data b.data

/-- Python string comparison a <= b. -/
def strLe (a b : String) : Bool := !(strLt b a)

/-- Strict comparison on Int, as a Bool. -/
def intLt (a b : Int) : Bool := decide (a < b)

/-- Non-strict comparison on Int, as a Bool: the ordering used for the
single-component sort key of the national GII table. -/
def keyLe1 (a b : Int) : Bool := decide (a ≤ b)

/-- Lexicographic comparison step for Python tuple ordering: compare the
heads strictly; on a tie, compare the tails with the given ordering. -/
def lexStep (ltA : α → α → Bool) (leB : β → β → Bool) (p q : α × β) : Bool :=
  if ltA p.1 q.1 then true
  else if ltA q.1 p.1 then false
  else leB p.2 q.2

/-- Ordering of two-component sort keys (negated year, province). -/
def keyLe2 : Int × String → Int × String → Bool := lexStep intLt strLe

/-- Ordering of three-component sort keys
(negated year, then two string components). -/
def keyLe3 : Int × String × String → Int × String × String → Bool :=
  lexStep intLt (lexStep strLt strLe)

/-- Ordering of four-component sort keys
(negated year, then three string components). -/
def keyLe4 : Int × String × String × String → Int × String × String × String → Bool :=
  lexStep intLt (lexStep strLt (lexStep strLt strLe))

/-- Pair every element with its sort key; none when the key function raises
on some element, as Python sorted raises when its key function does. -/
def keyed (key : α → Option K) : List α → Option (List (K × α))
  | [] => some []
  | a :: as =>
    match key a with
    | none => none
    | some k => (keyed key as).map (fun ps => (k, a) :: ps)

/-- Stable insertion step: the new element goes in front of the first
element it compares less-or-equal to, hence before later-arriving equals. -/
def insertLe (le : α → α → Bool) (a : α) : List α → List α
  | [] => [a]
  | b :: bs => if le a b then a :: b :: bs else b :: insertLe le a bs

/-- Stable insertion sort: computes the same list as any stable sort with
the same total preorder, in particular Python's. -/
def sortLe (le : α → α → Bool) : List α → List α
  | [] => []
  | a :: as => insertLe le a (sortLe le as)

/-- Python sorted(l, key=key) where the key function can raise: none when the
key raises on any element, otherwise the list stably sorted by key. -/
def trySortBy (key : α → Option K) (le : K → K → Bool) (l : List α) :
    Option (List α) :=
  (keyed key l).map (fun ps =>
    (sortLe (fun x y => le x.1 y.1) ps).map Prod.snd)

/-- The transformer loops of pipeline.py: walk the rows, keep those passing
the admin-level retention check, and build one output record per kept row;
none when building a record raises (int() on a bad area_id). -/
def buildRows (retain : α → Bool) (mk : α → Option β) : List α → Option (List β)
  | [] => some []
  | a :: as =>
    if retain a then
      match mk a with
      | none => none
      | some b => (buildRows retain mk as).map (fun bs => b :: bs)
    else buildRows retain mk as

/-- Common shape of all seven transformers: the building loop followed by
the sort; either stage can raise. -/
def runTransform (retain : Row → Bool) (mk : Row → Option Row)
    (key : Row → Option K) (le : K → K → Bool) (rows : List Row) :
    Option (List Row) :=
  match buildRows retain mk rows with
  | none => none
  | some ts => trySortBy key le ts

/-- A country record loaded from country.json features
(properties iso, name_0, area_id). -/
structure Country where
  iso3 : String
  name : String
  area_id : Int
deriving DecidableEq

/-- A province-mapping entry loaded from provinces.json features
(properties iso, name_1). -/
structure ProvEntry where
  iso3 : String
  name : String
deriving DecidableEq

/-- The province mapping: Python dict from integer area_id to entry
(keys unique). -/
abbrev ProvMap := List (Int × ProvEntry)

/-- Python dict get on the province mapping. -/
def provLookup : ProvMap → Int → Option ProvEntry
  | [], _ => none
  | (k, e) :: rest, n => if n = k then some e else provLookup rest n

/-- A GeoJSON feature: a properties dict plus an opaque payload (geometry
and anything else), carried through unchanged. -/
structure Feature where
  properties : Row
  payload : String
deriving DecidableEq

/-- Pipeline._get_country_area_id: first country whose iso3 matches, else
none (the Python method returns None). -/
def getCountryAreaId : List Country → String → Option Int
  | [], _ => none
  | c :: cs, cc => if c.iso3 = cc then some c.area_id else getCountryAreaId cs cc

/-- Pipeline._get_province_area_ids: the area_ids of all mapping entries whose
iso3 equals the country code (a Python set; only membership is used). -/
def provinceAreaIds (m : ProvMap) (cc : String) : List Int :=
  (m.filter (fun p => p.2.iso3 = cc)).map Prod.fst

/-- The area_id a row presents to the country filter:
int(row.get("area_id", -1)).  An absent key gives the integer -1 (already an
int, so int() succeeds); a present value is parsed, and none models the
ValueError the except clause catches. -/
def pyAreaId (row : Row) : Option Int :=
  match rowGet row "area_id" with
  | none => some (-1)
  | some s => pyInt? s

/-- The per-row predicate of Pipeline._filter_csv_by_country: a row is kept
when its admin_level is country and its area_id equals the country's area_id,
or its admin_level is province and its area_id is among the country's province
area_ids; a row whose area_id does not parse is skipped by the except clause. -/
def keepRow (cid? : Option Int) (provIds : List Int) (row : Row) : Bool :=
  match pyAreaId row with
  | none => false
  | some a =>
    let al := rowGetD row "admin_level" ""
    (decide (al = "country") &&
      (match cid? with
       | some cid => decide (a = cid)
       | none => false)) ||
    (decide (al = "province") && decide (a ∈ provIds))

/-- Pipeline._filter_csv_by_country. -/
def filterCsvByCountry (countries : List Country) (m : ProvMap)
    (rows : List Row) (cc : String) : List Row :=
  rows.filter (keepRow (getCountryAreaId countries cc) (provinceAreaIds m cc))

/-- Pipeline._filter_geojson_by_country: keep the features whose
properties.get("iso") equals the country code, order preserved. -/
def filterGeojsonByCountry (features : List Feature) (cc : String) :
    List Feature :=
  features.filter (fun f => decide (rowGet f.properties "iso" = some cc))

/-- Retention check of the national transformers:
row.get("admin_level") != "country" skips the row. -/
def retainCountry (row : Row) : Bool :=
  decide (rowGet row "admin_level" = some "country")

/-- Retention check of the subnational transformers:
row.get("admin_level") != "province" skips the row. -/
def retainProvince (row : Row) : Bool :=
  decide (rowGet row "admin_level" = some "province")

/-- Province resolution of the subnational and sex-disaggregated
transformers (pipeline.py lines 226-228, 290-292, 366-368, 407-409):
an empty (falsy) area_id yields no lookup and an empty name; otherwise
int(area_id) is applied - none models the uncaught ValueError on a
non-empty unparsable area_id - and a mapping miss degrades to the empty
name. -/
def resolveProvince (m : ProvMap) (area_id : String) : Option String :=
  if area_id = "" then some ""
  else
    match pyInt? area_id with
    | none => none
    | some n => some (((provLookup m n).map ProvEntry.name).getD "")

/-- Output record of _transform_gii_national: note the country field is
copied from the source row's admin_name. -/
def mkGiiNationalRow (cc : String) (row : Row) : Row :=
  [("iso3", cc),
   ("country", rowGetD row "admin_name" ""),
   ("year", rowGetD row "year" ""),
   ("gender_inequality_index", rowGetD row "gii" "")]

/-- Sort key of _transform_gii_national: int(year), reverse=True, modelled as
the negated year ascending; none when int() raises. -/
def giiNatKey (r : Row) : Option Int :=
  (pyInt? (rowGetD r "year" "")).map (fun y => -y)

/-- Pipeline._transform_gii_national. -/
def transform_gii_national (rows : List Row) (cc : String) : Option (List Row) :=
  runTransform retainCountry (fun row => some (mkGiiNationalRow cc row))
    giiNatKey keyLe1 rows

/-- Output record of _transform_gii_subnational, given the resolved
province name. -/
def mkGiiSubnationalRow (cc cn pn : String) (row : Row) : Row :=
  [("iso3", cc),
   ("country", cn),
   ("province", pn),
   ("year", rowGetD row "year" ""),
   ("gender_inequality_index", rowGetD row "gii" "")]

/-- Sort key of _transform_gii_subnational: (-int(year), province). -/
def giiSubKey (r : Row) : Option (Int × String) :=
  (pyInt? (rowGetD r "year" "")).map (fun y => (-y, rowGetD r "province" ""))

/-- Pipeline._transform_gii_subnational. -/
def transform_gii_subnational (m : ProvMap) (rows : List Row) (cc cn : String) :
    Option (List Row) :=
  runTransform retainProvince
    (fun row => (resolveProvince m (rowGetD row "area_id" "")).map
      (fun pn => mkGiiSubnationalRow cc cn pn row))
    giiSubKey keyLe2 rows

/-- Output record of _transform_dimension_national: country is copied from
the source row's admin_name, and the dimension_category comes from the
unnamed CSV column (the empty-string key). -/
def mkDimensionNationalRow (cc : String) (row : Row) : Row :=
  [("iso3", cc),
   ("country", rowGetD row "admin_name" ""),
   ("dimension_category", rowGetD row "" ""),
   ("dimension", rowGetD row "dimension_name" ""),
   ("gender", rowGetD row "F/M" ""),
   ("year", rowGetD row "year" ""),
   ("value", rowGetD row "value" ""),
   ("unit", rowGetD row "Unit" "")]

/-- Sort key of _transform_dimension_national:
(-int(year), dimension_category, dimension). -/
def dimNatKey (r : Row) : Option (Int × String × String) :=
  (pyInt? (rowGetD r "year" "")).map
    (fun y => (-y, rowGetD r "dimension_category" "", rowGetD r "dimension" ""))

/-- Pipeline._transform_dimension_national. -/
def transform_dimension_national (rows : List Row) (cc : String) :
    Option (List Row) :=
  runTransform retainCountry (fun row => some (mkDimensionNationalRow cc row))
    dimNatKey keyLe3 rows

/-- Output record of _transform_dimension_subnational. -/
def mkDimensionSubnationalRow (cc cn pn : String) (row : Row) : Row :=
  [("iso3", cc),
   ("country", cn),
   ("province", pn),
   ("dimension_category", rowGetD row "" ""),
   ("dimension", rowGetD row "dimension_name" ""),
   ("gender", rowGetD row "F/M" ""),
   ("year", rowGetD row "year" ""),
   ("value", rowGetD row "value" ""),
   ("unit", rowGetD row "Unit" "")]

/-- Sort key of _transform_dimension_subnational:
(-int(year), province, dimension_category, dimension). -/
def dimSubKey (r : Row) : Option (Int × String × String × String) :=
  (pyInt? (rowGetD r "year" "")).map
    (fun y => (-y, rowGetD r "province" "",
      rowGetD r "dimension_category" "", rowGetD r "dimension" ""))

/-- Pipeline._transform_dimension_subnational. -/
def transform_dimension_subnational (m : ProvMap) (rows : List Row)
    (cc cn : String) : Option (List Row) :=
  runTransform retainProvince
    (fun row => (resolveProvince m (rowGetD row "area_id" "")).map
      (fun pn => mkDimensionSubnationalRow cc cn pn row))
    dimSubKey keyLe4 rows

/-- Output record of _transform_indicator_national: this national transformer
does take the country name. -/
def mkIndicatorNationalRow (cc cn : String) (row : Row) : Row :=
  [("iso3", cc),
   ("country", cn),
   ("indicator_category", rowGetD row "common_name" ""),
   ("indicator", rowGetD row "indicator_name" ""),
   ("gender", rowGetD row "F/M" ""),
   ("year", rowGetD row "year" ""),
   ("value", rowGetD row "value" ""),
   ("unit", rowGetD row "Unit" "")]

/-- Sort key of _transform_indicator_national:
(-int(year), indicator_category, indicator). -/
def indNatKey (r : Row) : Option (Int × String × String) :=
  (pyInt? (rowGetD r "year" "")).map
    (fun y => (-y, rowGetD r "indicator_category" "", rowGetD r "indicator" ""))

/-- Pipeline._transform_indicator_national. -/
def transform_indicator_national (rows : List Row) (cc cn : String) :
    Option (List Row) :=
  runTransform retainCountry (fun row => some (mkIndicatorNationalRow cc cn row))
    indNatKey keyLe3 rows

/-- Output record of _transform_indicator_subnational. -/
def mkIndicatorSubnationalRow (cc cn pn : String) (row : Row) : Row :=
  [("iso3", cc),
   ("country", cn),
   ("province", pn),
   ("indicator_category", rowGetD row "common_name" ""),
   ("indicator", rowGetD row "indicator_name" ""),
   ("gender", rowGetD row "F/M" ""),
   ("year", rowGetD row "year" ""),
   ("value", rowGetD row "value" ""),
   ("unit", rowGetD row "Unit" "")]

/-- Sort key of _transform_indicator_subnational:
(-int(year), province, indicator_category, indicator). -/
def indSubKey (r : Row) : Option (Int × String × String × String) :=
  (pyInt? (rowGetD r "year" "")).map
    (fun y => (-y, rowGetD r "province" "",
      rowGetD r "indicator_category" "", rowGetD r "indicator" ""))

/-- Pipeline._transform_indicator_subnational. -/
def transform_indicator_subnational (m : ProvMap) (rows : List Row)
    (cc cn : String) : Option (List Row) :=
  runTransform retainProvince
    (fun row => (resolveProvince m (rowGetD row "area_id" "")).map
      (fun pn => mkIndicatorSubnationalRow cc cn pn row))
    indSubKey keyLe4 rows

/-- Output record of _transform_sex_disaggregated. -/
def mkSexDisaggRow (cc cn pn : String) (row : Row) : Row :=
  [("iso3", cc),
   ("country", cn),
   ("province", pn),
   ("indicator", rowGetD row "dataset_name_l1" ""),
   ("sub_indicator", rowGetD row "dataset_name_l2" ""),
   ("gender", rowGetD row "F/M" ""),
   ("year", rowGetD row "year" ""),
   ("value", rowGetD row "value" ""),
   ("unit", rowGetD row "Unit" ""),
   ("calculation_type", rowGetD row "calc" ""),
   ("definition", rowGetD row "Definition" "")]

/-- Sort key of _transform_sex_disaggregated:
(-int(year), province, indicator). -/
def sexDisaggKey (r : Row) : Option (Int × String × String) :=
  (pyInt? (rowGetD r "year" "")).map
    (fun y => (-y, rowGetD r "province" "", rowGetD r "indicator" ""))

/-- Pipeline._transform_sex_disaggregated: its loop has no admin_level check,
so every input row is retained. -/
def transform_sex_disaggregated (m : ProvMap) (rows : List Row)
    (cc cn : String) : Option (List Row) :=
  runTransform (fun _ => true)
    (fun row => (resolveProvince m (rowGetD row "area_id" "")).map
      (fun pn => mkSexDisaggRow cc cn pn row))
    sexDisaggKey keyLe3 rows

/-- The year a row contributes to Pipeline._get_years_from_rows:
row.get("year") must be present and truthy (non-empty), then int() must
succeed; the except clause drops failures. -/
def parsedYearOf (row : Row) : Option Int :=
  match rowGet row "year" with
  | none => none
  | some s => if s = "" then none else pyInt? s

/-- Pipeline._get_years_from_rows: min and max over the collected years,
falling back to (2000, 2024) when no year was collected.  Python collects
into a set; duplicates do not change min or max. -/
def getYearsFromRows (rows : List Row) : Int × Int :=
  match rows.filterMap parsedYearOf with
  | [] => (2000, 2024)
  | y :: ys => (ys.foldl min y, ys.foldl max y)

/-- The parsed input files of Pipeline.get_country_data: the country list
and province mapping loaded in the constructor, the four CSV tables and the
two feature collections loaded at the start of the method. -/
structure PipelineInput where
  countries : List Country
  province_mapping : ProvMap
  gii_data : List Row
  dimension_data : List Row
  indicator_data : List Row
  sex_disagg_data : List Row
  country_geojson : List Feature
  province_geojson : List Feature
deriving DecidableEq

/-- One element of the list returned by Pipeline.get_country_data: the
csv_data dict with its seven fixed keys becomes seven fields, in dict
insertion order, likewise geojson_data. -/
structure CountryResult where
  iso3 : String
  name : String
  gii_national : List Row
  gii_subnational : List Row
  dimension_national : List Row
  dimension_subnational : List Row
  indicator_national : List Row
  indicator_subnational : List Row
  sex_disaggregated : List Row
  country_boundary : List Feature
  province_boundaries : List Feature
  min_year : Int
  max_year : Int
deriving DecidableEq

/-- The body of the per-country loop of Pipeline.get_country_data; none
models an exception raised while transforming (which would abort the whole
Python run). -/
def processCountry (inp : PipelineInput) (c : Country) : Option CountryResult := do
  let giiF := filterCsvByCountry inp.countries inp.province_mapping
    inp.gii_data c.iso3
  let dimF := filterCsvByCountry inp.countries inp.province_mapping
    inp.dimension_data c.iso3
  let indF := filterCsvByCountry inp.countries inp.province_mapping
    inp.indicator_data c.iso3
  let sexF := filterCsvByCountry inp.countries inp.province_mapping
    inp.sex_disagg_data c.iso3
  let giiNat ← transform_gii_national giiF c.iso3
  let giiSub ← transform_gii_subnational inp.province_mapping giiF c.iso3 c.name
  let dimNat ← transform_dimension_national dimF c.iso3
  let dimSub ← transform_dimension_subnational inp.province_mapping dimF
    c.iso3 c.name
  let indNat ← transform_indicator_national indF c.iso3 c.name
  let indSub ← transform_indicator_subnational inp.province_mapping indF
    c.iso3 c.name
  let sexDis ← transform_sex_disaggregated inp.province_mapping sexF
    c.iso3 c.name
  let allRows := giiNat ++ giiSub ++ dimNat ++ dimSub ++ indNat ++ indSub ++ sexDis
  let years := getYearsFromRows allRows
  some
    { iso3 := c.iso3
      name := c.name
      gii_national := giiNat
      gii_subnational := giiSub
      dimension_national := dimNat
      dimension_subnational := dimSub
      indicator_national := indNat
      indicator_subnational := indSub
      sex_disaggregated := sexDis
      country_boundary := filterGeojsonByCountry inp.country_geojson c.iso3
      province_boundaries := filterGeojsonByCountry inp.province_geojson c.iso3
      min_year := years.1
      max_year := years.2 }

/-- The per-country loop of Pipeline.get_country_data, in country load
order. -/
def processAll (inp : PipelineInput) : List Country → Option (List CountryResult)
  | [] => some []
  | c :: cs =>
    match processCountry inp c with
    | none => none
    | some r => (processAll inp cs).map (fun rs => r :: rs)

/-- Pipeline.get_country_data as a function of the parsed input files. -/
def getCountryData (inp : PipelineInput) : Option (List CountryResult) :=
  processAll inp inp.countries

/-! ### Ordering facts for the sort-key comparators -/

theorem charsLt_trans : ∀ a b c : List Char,
    charsLt a b = true → charsLt b c = true → charsLt a c = true := by
  intro a
  induction a with
  | nil =>
    intro b c hab hbc
    cases b with
    | nil => simp [charsLt] at hab
    | cons x xs =>
      cases c with
      | nil => simp [charsLt] at hbc
      | cons y ys => simp [charsLt]
  | cons x xs ih =>
    intro b c hab hbc
    cases b with
    | nil => simp [charsLt] at hab
    | cons y ys =>
      cases c with
      | nil => simp [charsLt] at hbc
      | cons z zs =>
        simp only [charsLt] at hab hbc ⊢
        by_cases hxy : x.toNat < y.toNat
        · by_cases hyz : y.toNat < z.toNat
          · have : x.toNat < z.toNat := Nat.lt_trans hxy hyz
            simp [this]
          · simp only [hyz, if_false] at hbc
            by_cases hzy : z.toNat < y.toNat
            · simp [hzy] at hbc
            · have hyz' : y.toNat = z.toNat := Nat.le_antisymm
                (Nat.le_of_not_lt hzy) (Nat.le_of_not_lt hyz)
            
              have : x.toNat < z.toNat := hyz' ▸ hxy
              simp [this]
        · simp only [hxy, if_false] at hab
          by_cases hyx : y.toNat < x.toNat
          · simp [hyx] at hab
          · have hxy' : x.toNat = y.toNat := Nat.le_antisymm
              (Nat.le_of_not_lt hyx) (Nat.le_of_not_lt hxy)
            simp only [hyx, if_false] at hab
            by_cases hyz : y.toNat < z.toNat
            · have : x.toNat < z.toNat := hxy' ▸ hyz
              simp [this]
            · simp only [hyz, if_false] at hbc
              by_cases hzy : z.toNat < y.toNat
              · simp [hzy] at hbc
              · have hyz' : y.toNat = z.toNat := Nat.le_antisymm
                  (Nat.le_of_not_lt hzy) (Nat.le_of_not_lt hyz)
                simp only [hzy, if_false] at hbc
                have hxz : ¬ x.toNat < z.toNat := by omega
                have hzx : ¬ z.toNat < x.toNat := by omega
                simp [hxz, hzx]
                exact ih ys zs hab hbc

theorem charsLt_eq_of_not : ∀ a b : List Char,
    charsLt a b = false → charsLt b a = false → a = b := by
  intro a
  induction a with
  | nil =>
    intro b hab _
    cases b with
    | nil => rfl
    | cons x xs => simp [charsLt] at hab
  | cons x xs ih =>
    intro b hab hba
    cases b with
    | nil => simp [charsLt] at hba
    | cons y ys =>
      simp only [charsLt] at hab hba
      by_cases hxy : x.toNat < y.toNat
      · simp [hxy] at hab
      · by_cases hyx : y.toNat < x.toNat
        · simp [hyx] at hba
        · have hx : x = y := by
            apply Char.ext
            apply UInt32.ext
            have : x.toNat = y.toNat := Nat.le_antisymm
              (Nat.le_of_not_lt hyx) (Nat.le_of_not_lt hxy)
            simpa [Char.toNat] using this
          simp only [hxy, hyx, if_false] at hab hba
          exact by rw [hx, ih ys hab hba]

theorem strLt_trans {a b c : String} (h1 : strLt a b = true)
    (h2 : strLt b c = true) : strLt a c = true :=
  charsLt_trans a.data b.data c.data h1 h2

theorem strLt_eq_of_not {a b : String} (h1 : strLt a b = false)
    (h2 : strLt b a = false) : a = b :=
  String.ext (charsLt_eq_of_not a.data b.data h1 h2)

theorem strLe_trans {a b c : String} (h1 : strLe a b = true)
    (h2 : strLe b c = true) : strLe a c = true := by
  simp only [strLe, Bool.not_eq_true', Bool.not_eq_false] at h1 h2 ⊢
  by_cases hca : strLt c a = true
  · by_cases hbc : strLt b c = true
    · exact absurd (strLt_trans hbc hca) (by simp [h1])
    · have : b = c := strLt_eq_of_not (Bool.eq_false_iff.mpr (by simp [hbc])) h2
      subst this
      exact absurd hca (by simp [h1])
  · simpa using hca

theorem strLe_total (a b : String) : (strLe a b || strLe b a) = true := by
  simp only [strLe, Bool.or_eq_true, Bool.not_eq_true', Bool.not_eq_false]
  by_cases h : strLt b a = true
  · right
    by_cases h2 : strLt a b = true
    · have := strLt_trans h2 h
      exact absurd this (by
        have : charsLt a.data a.data = false := by
          clear h h2
          induction a.data with
          | nil => simp [charsLt]
          | cons x xs ih => simp [charsLt, ih]
        simp [strLt, this])
    · simpa using h2
  · left
    simpa using h

theorem strLt_le {a b : String} (h : strLt a b = true) : strLe a b = true := by
  simp only [strLe, Bool.not_eq_true', Bool.not_eq_false]
  by_cases hba : strLt b a = true
  · have hlt := strLt_trans h hba
    have : charsLt a.data a.data = false := by
      induction a.data with
      | nil => simp [charsLt]
      | cons x xs ih => simp [charsLt, ih]
    simp [strLt, this] at hlt
  · simpa using hba

/-- Unfolding of the lexicographic step as a disjunction. -/
theorem lexStep_eq_true_iff (ltA : α → α → Bool) (leB : β → β → Bool)
    (p q : α × β) :
    lexStep ltA leB p q = true ↔
      ltA p.1 q.1 = true ∨
      (ltA p.1 q.1 = false ∧ ltA q.1 p.1 = false ∧ leB p.2 q.2 = true) := by
  unfold lexStep
  by_cases h1 : ltA p.1 q.1 = true
  · simp [h1]
  · by_cases h2 : ltA q.1 p.1 = true
    · simp [h1, h2]
    · simp only [Bool.not_eq_true] at h1 h2
      simp [h1, h2]

theorem lexStep_trans (ltA : α → α → Bool) (leB : β → β → Bool)
    (htA : ∀ a b c, ltA a b = true → ltA b c = true → ltA a c = true)
    (heqA : ∀ a b, ltA a b = false → ltA b a = false → a = b)
    (htB : ∀ x y z, leB x y = true → leB y z = true → leB x z = true) :
    ∀ p q r, lexStep ltA leB p q = true → lexStep ltA leB q r = true →
      lexStep ltA leB p r = true := by
  intro p q r hpq hqr
  rw [lexStep_eq_true_iff] at hpq hqr ⊢
  rcases hpq with h1 | ⟨h1, h1', hb1⟩
  · rcases hqr with h2 | ⟨h2, h2', hb2⟩
    · exact Or.inl (htA _ _ _ h1 h2)
    · have := heqA _ _ h2 h2'
      exact Or.inl (this ▸ h1)
  · have heq : p.1 = q.1 := heqA _ _ h1 h1'
    rcases hqr with h2 | ⟨h2, h2', hb2⟩
    · exact Or.inl (heq ▸ h2)
    · right
      refine ⟨?_, ?_, htB _ _ _ hb1 hb2⟩
      · rw [heq]
        exact h2
      · rw [heq]
        exact h2'

theorem lexStep_total (ltA : α → α → Bool) (leB : β → β → Bool)
    (htotB : ∀ x y, (leB x y || leB y x) = true) :
    ∀ p q, (lexStep ltA leB p q || lexStep ltA leB q p) = true := by
  intro p q
  unfold lexStep
  by_cases h1 : ltA p.1 q.1 = true
  · simp [h1]
  · by_cases h2 : ltA q.1 p.1 = true
    · simp [h2]
    · simp only [Bool.not_eq_true] at h1 h2
      simp only [h1, h2, if_false, Bool.false_eq_true]
      exact htotB _ _

theorem intLt_trans : ∀ a b c : Int, intLt a b = true → intLt b c = true →
    intLt a c = true := by
  intro a b c h1 h2
  simp only [intLt, decide_eq_true_eq] at h1 h2 ⊢
  omega

theorem intLt_eq_of_not : ∀ a b : Int, intLt a b = false → intLt b a = false →
    a = b := by
  intro a b h1 h2
  simp only [intLt, decide_eq_false_iff_not, Int.not_lt] at h1 h2
  omega

theorem strLt_eq_of_not' : ∀ a b : String, strLt a b = false →
    strLt b a = false → a = b := fun _ _ h1 h2 => strLt_eq_of_not h1 h2

theorem strLe_trans' : ∀ a b c : String, strLe a b = true → strLe b c = true →
    strLe a c = true := fun _ _ _ h1 h2 => strLe_trans h1 h2

theorem keyLe2_trans : ∀ p q r, keyLe2 p q = true → keyLe2 q r = true →
    keyLe2 p r = true :=
  lexStep_trans intLt strLe intLt_trans intLt_eq_of_not strLe_trans'

theorem keyLe2_total : ∀ p q, (keyLe2 p q || keyLe2 q p) = true :=
  lexStep_total intLt strLe strLe_total

theorem lexStrStr_trans : ∀ p q r : String × String,
    lexStep strLt strLe p q = true → lexStep strLt strLe q r = true →
      lexStep strLt strLe p r = true :=
  lexStep_trans strLt strLe (fun _ _ _ => strLt_trans) strLt_eq_of_not'
    strLe_trans'

theorem lexStrStr_total : ∀ p q : String × String,
    (lexStep strLt strLe p q || lexStep strLt strLe q p) = true :=
  lexStep_total strLt strLe strLe_total

theorem keyLe3_trans : ∀ p q r, keyLe3 p q = true → keyLe3 q r = true →
    keyLe3 p r = true :=
  lexStep_trans intLt (lexStep strLt strLe) intLt_trans intLt_eq_of_not
    lexStrStr_trans

theorem keyLe3_total : ∀ p q, (keyLe3 p q || keyLe3 q p) = true :=
  lexStep_total intLt (lexStep strLt strLe) lexStrStr_total

theorem lexStr3_trans : ∀ p q r : String × String × String,
    lexStep strLt (lexStep strLt strLe) p q = true →
    lexStep strLt (lexStep strLt strLe) q r = true →
      lexStep strLt (lexStep strLt strLe) p r = true :=
  lexStep_trans strLt (lexStep strLt strLe) (fun _ _ _ => strLt_trans)
    strLt_eq_of_not' lexStrStr_trans

theorem lexStr3_total : ∀ p q : String × String × String,
    (lexStep strLt (lexStep strLt strLe) p q ||
      lexStep strLt (lexStep strLt strLe) q p) = true :=
  lexStep_total strLt (lexStep strLt strLe) lexStrStr_total

theorem keyLe4_trans : ∀ p q r, keyLe4 p q = true → keyLe4 q r = true →
    keyLe4 p r = true :=
  lexStep_trans intLt (lexStep strLt (lexStep strLt strLe)) intLt_trans
    intLt_eq_of_not lexStr3_trans

theorem keyLe4_total : ∀ p q, (keyLe4 p q || keyLe4 q p) = true :=
  lexStep_total intLt (lexStep strLt (lexStep strLt strLe)) lexStr3_total

theorem keyLe1_trans : ∀ a b c, keyLe1 a b = true → keyLe1 b c = true →
    keyLe1 a c = true := by
  intro a b c h1 h2
  simp only [keyLe1, decide_eq_true_eq] at h1 h2 ⊢
  omega

theorem keyLe1_total : ∀ a b, (keyLe1 a b || keyLe1 b a) = true := by
  intro a b
  simp only [keyLe1, Bool.or_eq_true, decide_eq_true_eq]
  omega

/-! ### Facts about the sorting and record-building combinators -/

theorem insertLe_perm (le : α → α → Bool) (a : α) :
    ∀ l : List α, (insertLe le a l).Perm (a :: l) := by
  intro l
  induction l with
  | nil => exact List.Perm.refl _
  | cons b bs ih =>
    unfold insertLe
    by_cases h : le a b = true
    · rw [if_pos h]
    · rw [if_neg h]
      exact (List.Perm.cons b ih).trans (List.Perm.swap a b bs)

theorem sortLe_perm (le : α → α → Bool) :
    ∀ l : List α, (sortLe le l).Perm l := by
  intro l
  induction l with
  | nil => exact List.Perm.refl _
  | cons a as ih =>
    exact (insertLe_perm le a (sortLe le as)).trans (List.Perm.cons a ih)

theorem insertLe_pairwise {le : α → α → Bool}
    (htrans : ∀ a b c, le a b = true → le b c = true → le a c = true)
    (htotal : ∀ a b, (le a b || le b a) = true) (a : α) :
    ∀ {l : List α}, l.Pairwise (fun x y => le x y = true) →
      (insertLe le a l).Pairwise (fun x y => le x y = true) := by
  intro l
  induction l with
  | nil =>
    intro _
    simp [insertLe]
  | cons b bs ih =>
    intro h
    rw [List.pairwise_cons] at h
    obtain ⟨hb, hbs⟩ := h
    unfold insertLe
    by_cases hab : le a b = true
    · rw [if_pos hab]
      rw [List.pairwise_cons]
      refine ⟨?_, List.pairwise_cons.mpr ⟨hb, hbs⟩⟩
      intro x hx
      rcases List.mem_cons.mp hx with hx | hx
      · rw [hx]
        exact hab
      · exact htrans a b x hab (hb x hx)
    · rw [if_neg hab]
      rw [List.pairwise_cons]
      refine ⟨?_, ih hbs⟩
      intro x hx
      have hx' := (insertLe_perm le a bs).mem_iff.mp hx
      rcases List.mem_cons.mp hx' with hx' | hx'
      · rw [hx']
        have := htotal a b
        rcases Bool.or_eq_true_iff.mp this with h | h
        · exact absurd h hab
        · exact h
      · exact hb x hx'

theorem sortLe_pairwise {le : α → α → Bool}
    (htrans : ∀ a b c, le a b = true → le b c = true → le a c = true)
    (htotal : ∀ a b, (le a b || le b a) = true) :
    ∀ l : List α, (sortLe le l).Pairwise (fun x y => le x y = true) := by
  intro l
  induction l with
  | nil => simp [sortLe]
  | cons a as ih => exact insertLe_pairwise htrans htotal a ih

theorem keyed_some_snd {key : α → Option K} :
    ∀ {l : List α} {ps : List (K × α)}, keyed key l = some ps →
      ps.map Prod.snd = l := by
  intro l
  induction l with
  | nil =>
    intro ps h
    simp only [keyed] at h
    cases h
    rfl
  | cons a as ih =>
    intro ps h
    simp only [keyed] at h
    cases hk : key a with
    | none => rw [hk] at h; cases h
    | some k =>
      rw [hk] at h
      cases hrest : keyed key as with
      | none => rw [hrest] at h; cases h
      | some qs =>
        rw [hrest] at h
        simp only [Option.map_some'] at h
        cases h
        simp [ih hrest]

theorem keyed_some_keys {key : α → Option K} :
    ∀ {l : List α} {ps : List (K × α)}, keyed key l = some ps →
      ∀ p ∈ ps, key p.2 = some p.1 := by
  intro l
  induction l with
  | nil =>
    intro ps h p hp
    simp only [keyed] at h
    cases h
    simp at hp
  | cons a as ih =>
    intro ps h p hp
    simp only [keyed] at h
    cases hk : key a with
    | none => rw [hk] at h; cases h
    | some k =>
      rw [hk] at h
      cases hrest : keyed key as with
      | none => rw [hrest] at h; cases h
      | some qs =>
        rw [hrest] at h
        simp only [Option.map_some'] at h
        cases h
        rcases List.mem_cons.mp hp with hp | hp
        · cases hp; exact hk
        · exact ih hrest p hp

theorem keyed_none_of {key : α → Option K} {l : List α} {a : α}
    (ha : a ∈ l) (hk : key a = none) : keyed key l = none := by
  induction l with
  | nil => simp at ha
  | cons x xs ih =>
    rcases List.mem_cons.mp ha with h | h
    · cases h
      simp [keyed, hk]
    · simp only [keyed]
      cases hx : key x with
      | none => rfl
      | some k => simp [ih h]

theorem trySortBy_perm {key : α → Option K} {le : K → K → Bool}
    {l out : List α} (h : trySortBy key le l = some out) : out.Perm l := by
  unfold trySortBy at h
  cases hk : keyed key l with
  | none => rw [hk] at h; cases h
  | some ps =>
    rw [hk] at h
    simp only [Option.map_some'] at h
    cases h
    have hperm : (sortLe (fun x y => le x.1 y.1) ps).Perm ps :=
      sortLe_perm _ ps
    have := hperm.map Prod.snd
    rw [keyed_some_snd hk] at this
    exact this

theorem trySortBy_pairwise {key : α → Option K} {le : K → K → Bool}
    (htrans : ∀ a b c, le a b = true → le b c = true → le a c = true)
    (htotal : ∀ a b, (le a b || le b a) = true)
    {l out : List α} (h : trySortBy key le l = some out) :
    out.Pairwise (fun a b => ∃ ka kb, key a = some ka ∧ key b = some kb ∧
      le ka kb = true) := by
  unfold trySortBy at h
  cases hk : keyed key l with
  | none => rw [hk] at h; cases h
  | some ps =>
    rw [hk] at h
    simp only [Option.map_some'] at h
    cases h
    have hsorted : (sortLe (fun x y => le x.1 y.1) ps).Pairwise
        (fun x y => le x.1 y.1 = true) :=
      sortLe_pairwise (fun a b c => htrans a.1 b.1 c.1)
        (fun a b => htotal a.1 b.1) ps
    have hmem : ∀ p ∈ sortLe (fun x y => le x.1 y.1) ps,
        key p.2 = some p.1 := by
      intro p hp
      exact keyed_some_keys hk p ((sortLe_perm _ ps).mem_iff.mp hp)
    rw [List.pairwise_map]
    exact hsorted.imp_of_mem (fun {a b} ha hb hle =>
      ⟨a.1, b.1, hmem a ha, hmem b hb, hle⟩)

theorem trySortBy_none_of {key : α → Option K} {le : K → K → Bool}
    {l : List α} {a : α} (ha : a ∈ l) (hk : key a = none) :
    trySortBy key le l = none := by
  unfold trySortBy
  rw [keyed_none_of ha hk]
  rfl

theorem buildRows_some_mem {retain : α → Bool} {mk : α → Option β} :
    ∀ {l : List α} {out : List β}, buildRows retain mk l = some out →
      ∀ b ∈ out, ∃ a ∈ l, retain a = true ∧ mk a = some b := by
  intro l
  induction l with
  | nil =>
    intro out h b hb
    simp only [buildRows] at h
    cases h
    simp at hb
  | cons x xs ih =>
    intro out h b hb
    simp only [buildRows] at h
    by_cases hr : retain x = true
    · rw [if_pos hr] at h
      cases hmk : mk x with
      | none => rw [hmk] at h; cases h
      | some b0 =>
        rw [hmk] at h
        cases hrest : buildRows retain mk xs with
        | none => rw [hrest] at h; cases h
        | some bs =>
          rw [hrest] at h
          simp only [Option.map_some'] at h
          cases h
          rcases List.mem_cons.mp hb with hb | hb
          · cases hb
            exact ⟨x, List.mem_cons_self x xs, hr, hmk⟩
          · obtain ⟨a, ha, har, hamk⟩ := ih hrest b hb
            exact ⟨a, List.mem_cons_of_mem x ha, har, hamk⟩
    · rw [if_neg hr] at h
      obtain ⟨a, ha, har, hamk⟩ := ih h b hb
      exact ⟨a, List.mem_cons_of_mem x ha, har, hamk⟩

theorem buildRows_mem_of {retain : α → Bool} {mk : α → Option β} :
    ∀ {l : List α} {out : List β}, buildRows retain mk l = some out →
      ∀ a ∈ l, retain a = true → ∃ b, mk a = some b ∧ b ∈ out := by
  intro l
  induction l with
  | nil =>
    intro out h a ha
    simp at ha
  | cons x xs ih =>
    intro out h a ha hra
    simp only [buildRows] at h
    by_cases hr : retain x = true
    · rw [if_pos hr] at h
      cases hmk : mk x with
      | none => rw [hmk] at h; cases h
      | some b0 =>
        rw [hmk] at h
        cases hrest : buildRows retain mk xs with
        | none => rw [hrest] at h; cases h
        | some bs =>
          rw [hrest] at h
          simp only [Option.map_some'] at h
          cases h
          rcases List.mem_cons.mp ha with ha | ha
          · cases ha
            exact ⟨b0, hmk, List.mem_cons_self b0 bs⟩
          · obtain ⟨b, hbmk, hbmem⟩ := ih hrest a ha hra
            exact ⟨b, hbmk, List.mem_cons_of_mem b0 hbmem⟩
    · rw [if_neg hr] at h
      rcases List.mem_cons.mp ha with ha | ha
      · cases ha
        exact absurd hra hr
      · exact ih h a ha hra

theorem buildRows_length {retain : α → Bool} {mk : α → Option β} :
    ∀ {l : List α} {out : List β}, buildRows retain mk l = some out →
      out.length = (l.filter retain).length := by
  intro l
  induction l with
  | nil =>
    intro out h
    simp only [buildRows] at h
    cases h
    rfl
  | cons x xs ih =>
    intro out h
    simp only [buildRows] at h
    by_cases hr : retain x = true
    · rw [if_pos hr] at h
      cases hmk : mk x with
      | none => rw [hmk] at h; cases h
      | some b0 =>
        rw [hmk] at h
        cases hrest : buildRows retain mk xs with
        | none => rw [hrest] at h; cases h
        | some bs =>
          rw [hrest] at h
          simp only [Option.map_some'] at h
          cases h
          simp [List.filter_cons, hr, ih hrest]
    · rw [if_neg hr] at h
      simp only [Bool.not_eq_true] at hr
      simp [List.filter_cons, hr, ih h]

theorem buildRows_none_of {retain : α → Bool} {mk : α → Option β}
    {l : List α} {a : α} (ha : a ∈ l) (hra : retain a = true)
    (hmk : mk a = none) : buildRows retain mk l = none := by
  induction l with
  | nil => simp at ha
  | cons x xs ih =>
    simp only [buildRows]
    rcases List.mem_cons.mp ha with h | h
    · cases h
      rw [if_pos hra, hmk]
    · by_cases hr : retain x = true
      · rw [if_pos hr]
        cases hmk' : mk x with
        | none => rfl
        | some b => simp [ih h]
      · rw [if_neg hr]
        exact ih h

theorem runTransform_mem {retain : Row → Bool} {mk : Row → Option Row}
    {key : Row → Option K} {le : K → K → Bool} {rows out : List Row}
    (h : runTransform retain mk key le rows = some out) :
    ∀ r ∈ out, ∃ src ∈ rows, retain src = true ∧ mk src = some r := by
  unfold runTransform at h
  cases hb : buildRows retain mk rows with
  | none => rw [hb] at h; cases h
  | some ts =>
    rw [hb] at h
    intro r hr
    exact buildRows_some_mem hb r ((trySortBy_perm h).mem_iff.mp hr)

theorem runTransform_mem_of {retain : Row → Bool} {mk : Row → Option Row}
    {key : Row → Option K} {le : K → K → Bool} {rows out : List Row}
    (h : runTransform retain mk key le rows = some out) :
    ∀ src ∈ rows, retain src = true → ∃ r, mk src = some r ∧ r ∈ out := by
  unfold runTransform at h
  cases hb : buildRows retain mk rows with
  | none => rw [hb] at h; cases h
  | some ts =>
    rw [hb] at h
    intro src hsrc hret
    obtain ⟨r, hrmk, hrmem⟩ := buildRows_mem_of hb src hsrc hret
    exact ⟨r, hrmk, (trySortBy_perm h).mem_iff.mpr hrmem⟩

theorem runTransform_length {retain : Row → Bool} {mk : Row → Option Row}
    {key : Row → Option K} {le : K → K → Bool} {rows out : List Row}
    (h : runTransform retain mk key le rows = some out) :
    out.length = (rows.filter retain).length := by
  unfold runTransform at h
  cases hb : buildRows retain mk rows with
  | none => rw [hb] at h; cases h
  | some ts =>
    rw [hb] at h
    rw [(trySortBy_perm h).length_eq]
    exact buildRows_length hb

theorem runTransform_pairwise {retain : Row → Bool} {mk : Row → Option Row}
    {key : Row → Option K} {le : K → K → Bool}
    (htrans : ∀ a b c, le a b = true → le b c = true → le a c = true)
    (htotal : ∀ a b, (le a b || le b a) = true)
    {rows out : List Row}
    (h : runTransform retain mk key le rows = some out) :
    out.Pairwise (fun a b => ∃ ka kb, key a = some ka ∧ key b = some kb ∧
      le ka kb = true) := by
  unfold runTransform at h
  cases hb : buildRows retain mk rows with
  | none => rw [hb] at h; cases h
  | some ts =>
    rw [hb] at h
    exact trySortBy_pairwise htrans htotal h

theorem runTransform_none_of_badkey {retain : Row → Bool}
    {mk : Row → Option Row} {key : Row → Option K} {le : K → K → Bool}
    {rows : List Row} {src : Row} (hsrc : src ∈ rows)
    (hret : retain src = true)
    (hbad : ∀ r, mk src = some r → key r = none) :
    runTransform retain mk key le rows = none := by
  unfold runTransform
  cases hb : buildRows retain mk rows with
  | none => rfl
  | some ts =>
    obtain ⟨r, hrmk, hrmem⟩ := buildRows_mem_of hb src hsrc hret
    exact trySortBy_none_of hrmem (hbad r hrmk)

/-! ### Field values of transformer output records -/

theorem transform_gii_national_fields {rows out : List Row} {cc : String}
    (h : transform_gii_national rows cc = some out) :
    ∀ r ∈ out, rowGetD r "iso3" "" = cc := by
  intro r hr
  obtain ⟨src, _, _, hmk⟩ := runTransform_mem h r hr
  cases hmk
  simp [mkGiiNationalRow, rowGetD, rowGet]

theorem transform_gii_subnational_fields {m : ProvMap} {rows out : List Row}
    {cc cn : String} (h : transform_gii_subnational m rows cc cn = some out) :
    ∀ r ∈ out, rowGetD r "iso3" "" = cc ∧ rowGetD r "country" "" = cn := by
  intro r hr
  obtain ⟨src, _, _, hmk⟩ := runTransform_mem h r hr
  rw [Option.map_eq_some'] at hmk
  obtain ⟨pn, _, hvr⟩ := hmk
  cases hvr
  constructor <;> simp [mkGiiSubnationalRow, rowGetD, rowGet]

theorem transform_dimension_national_fields {rows out : List Row} {cc : String}
    (h : transform_dimension_national rows cc = some out) :
    ∀ r ∈ out, rowGetD r "iso3" "" = cc := by
  intro r hr
  obtain ⟨src, _, _, hmk⟩ := runTransform_mem h r hr
  cases hmk
  simp [mkDimensionNationalRow, rowGetD, rowGet]

theorem transform_dimension_subnational_fields {m : ProvMap}
    {rows out : List Row} {cc cn : String}
    (h : transform_dimension_subnational m rows cc cn = some out) :
    ∀ r ∈ out, rowGetD r "iso3" "" = cc ∧ rowGetD r "country" "" = cn := by
  intro r hr
  obtain ⟨src, _, _, hmk⟩ := runTransform_mem h r hr
  rw [Option.map_eq_some'] at hmk
  obtain ⟨pn, _, hvr⟩ := hmk
  cases hvr
  constructor <;> simp [mkDimensionSubnationalRow, rowGetD, rowGet]

theorem transform_indicator_national_fields {rows out : List Row}
    {cc cn : String} (h : transform_indicator_national rows cc cn = some out) :
    ∀ r ∈ out, rowGetD r "iso3" "" = cc ∧ rowGetD r "country" "" = cn := by
  intro r hr
  obtain ⟨src, _, _, hmk⟩ := runTransform_mem h r hr
  cases hmk
  constructor <;> simp [mkIndicatorNationalRow, rowGetD, rowGet]

theorem transform_indicator_subnational_fields {m : ProvMap}
    {rows out : List Row} {cc cn : String}
    (h : transform_indicator_subnational m rows cc cn = some out) :
    ∀ r ∈ out, rowGetD r "iso3" "" = cc ∧ rowGetD r "country" "" = cn := by
  intro r hr
  obtain ⟨src, _, _, hmk⟩ := runTransform_mem h r hr
  rw [Option.map_eq_some'] at hmk
  obtain ⟨pn, _, hvr⟩ := hmk
  cases hvr
  constructor <;> simp [mkIndicatorSubnationalRow, rowGetD, rowGet]

theorem transform_sex_disaggregated_fields {m : ProvMap} {rows out : List Row}
    {cc cn : String} (h : transform_sex_disaggregated m rows cc cn = some out) :
    ∀ r ∈ out, rowGetD r "iso3" "" = cc ∧ rowGetD r "country" "" = cn := by
  intro r hr
  obtain ⟨src, _, _, hmk⟩ := runTransform_mem h r hr
  rw [Option.map_eq_some'] at hmk
  obtain ⟨pn, _, hvr⟩ := hmk
  cases hvr
  constructor <;> simp [mkSexDisaggRow, rowGetD, rowGet]

/-! ### Unfolding the per-country aggregation -/

/-- What a successful processCountry run pins down: each table is the output
of its transformer on the corresponding partition, the geometry partitions,
the iso3 and name fields, and the year range computed over the concatenated
tables. -/
theorem processCountry_spec {inp : PipelineInput} {c : Country}
    {R : CountryResult} (h : processCountry inp c = some R) :
    R.iso3 = c.iso3 ∧ R.name = c.name ∧
    transform_gii_national
      (filterCsvByCountry inp.countries inp.province_mapping inp.gii_data c.iso3)
      c.iso3 = some R.gii_national ∧
    transform_gii_subnational inp.province_mapping
      (filterCsvByCountry inp.countries inp.province_mapping inp.gii_data c.iso3)
      c.iso3 c.name = some R.gii_subnational ∧
    transform_dimension_national
      (filterCsvByCountry inp.countries inp.province_mapping
        inp.dimension_data c.iso3) c.iso3 = some R.dimension_national ∧
    transform_dimension_subnational inp.province_mapping
      (filterCsvByCountry inp.countries inp.province_mapping
        inp.dimension_data c.iso3) c.iso3 c.name = some R.dimension_subnational ∧
    transform_indicator_national
      (filterCsvByCountry inp.countries inp.province_mapping
        inp.indicator_data c.iso3) c.iso3 c.name = some R.indicator_national ∧
    transform_indicator_subnational inp.province_mapping
      (filterCsvByCountry inp.countries inp.province_mapping
        inp.indicator_data c.iso3) c.iso3 c.name = some R.indicator_subnational ∧
    transform_sex_disaggregated inp.province_mapping
      (filterCsvByCountry inp.countries inp.province_mapping
        inp.sex_disagg_data c.iso3) c.iso3 c.name = some R.sex_disaggregated ∧
    R.country_boundary = filterGeojsonByCountry inp.country_geojson c.iso3 ∧
    R.province_boundaries = filterGeojsonByCountry inp.province_geojson c.iso3 ∧
    R.min_year = (getYearsFromRows (R.gii_national ++ R.gii_subnational ++
      R.dimension_national ++ R.dimension_subnational ++ R.indicator_national ++
      R.indicator_subnational ++ R.sex_disaggregated)).1 ∧
    R.max_year = (getYearsFromRows (R.gii_national ++ R.gii_subnational ++
      R.dimension_national ++ R.dimension_subnational ++ R.indicator_national ++
      R.indicator_subnational ++ R.sex_disaggregated)).2 := by
  unfold processCountry at h
  simp only [Option.bind_eq_bind, Option.bind_eq_some] at h
  obtain ⟨giiNat, h1, h⟩ := h
  obtain ⟨giiSub, h2, h⟩ := h
  obtain ⟨dimNat, h3, h⟩ := h
  obtain ⟨dimSub, h4, h⟩ := h
  obtain ⟨indNat, h5, h⟩ := h
  obtain ⟨indSub, h6, h⟩ := h
  obtain ⟨sexDis, h7, h⟩ := h
  cases h
  exact ⟨rfl, rfl, h1, h2, h3, h4, h5, h6, h7, rfl, rfl, rfl, rfl⟩

/-- Every result produced by the per-country loop comes from processing some
country of the input list. -/
theorem processAll_mem {inp : PipelineInput} :
    ∀ {cs : List Country} {results : List CountryResult},
      processAll inp cs = some results →
      ∀ R ∈ results, ∃ c ∈ cs, processCountry inp c = some R := by
  intro cs
  induction cs with
  | nil =>
    intro results h R hR
    simp only [processAll] at h
    cases h
    simp at hR
  | cons c cs ih =>
    intro results h R hR
    simp only [processAll] at h
    cases hc : processCountry inp c with
    | none => rw [hc] at h; cases h
    | some r =>
      rw [hc] at h
      cases hrest : processAll inp cs with
      | none => rw [hrest] at h; cases h
      | some rs =>
        rw [hrest] at h
        simp only [Option.map_some'] at h
        cases h
        rcases List.mem_cons.mp hR with hR | hR
        · cases hR
          exact ⟨c, List.mem_cons_self c cs, hc⟩
        · obtain ⟨c', hc', hp⟩ := ih hrest R hR
          exact ⟨c', List.mem_cons_of_mem c hc', hp⟩

/-! ### Year-range facts -/

theorem foldl_min_le_init : ∀ (ys : List Int) (y : Int), ys.foldl min y ≤ y := by
  intro ys
  induction ys with
  | nil => intro y; simp
  | cons h t ih =>
    intro y
    calc List.foldl min (min y h) t ≤ min y h := ih (min y h)
    _ ≤ y := min_le_left y h

theorem init_le_foldl_max : ∀ (ys : List Int) (y : Int), y ≤ ys.foldl max y := by
  intro ys
  induction ys with
  | nil => intro y; simp
  | cons h t ih =>
    intro y
    calc y ≤ max y h := le_max_left y h
    _ ≤ List.foldl max (max y h) t := ih (max y h)

theorem foldl_min_le_mem : ∀ (ys : List Int) (y z : Int), z ∈ ys →
    ys.foldl min y ≤ z := by
  intro ys
  induction ys with
  | nil => intro y z hz; simp at hz
  | cons h t ih =>
    intro y z hz
    simp only [List.foldl_cons]
    rcases List.mem_cons.mp hz with hz | hz
    · rw [hz]
      calc List.foldl min (min y h) t ≤ min y h := foldl_min_le_init t (min y h)
      _ ≤ h := min_le_right y h
    · exact ih (min y h) z hz

theorem mem_le_foldl_max : ∀ (ys : List Int) (y z : Int), z ∈ ys →
    z ≤ ys.foldl max y := by
  intro ys
  induction ys with
  | nil => intro y z hz; simp at hz
  | cons h t ih =>
    intro y z hz
    simp only [List.foldl_cons]
    rcases List.mem_cons.mp hz with hz | hz
    · rw [hz]
      calc h ≤ max y h := le_max_right y h
      _ ≤ List.foldl max (max y h) t := init_le_foldl_max t (max y h)
    · exact ih (max y h) z hz

theorem foldl_min_mem : ∀ (ys : List Int) (y : Int),
    ys.foldl min y ∈ y :: ys := by
  intro ys
  induction ys with
  | nil => intro y; simp
  | cons h t ih =>
    intro y
    simp only [List.foldl_cons]
    have hmem := ih (min y h)
    rcases List.mem_cons.mp hmem with hm | hm
    · rw [hm]
      rcases min_choice y h with hc | hc
      · rw [hc]; exact List.mem_cons_self _ _
      · rw [hc]; exact List.mem_cons_of_mem _ (List.mem_cons_self _ _)
    · exact List.mem_cons_of_mem _ (List.mem_cons_of_mem _ hm)

theorem foldl_max_mem : ∀ (ys : List Int) (y : Int),
    ys.foldl max y ∈ y :: ys := by
  intro ys
  induction ys with
  | nil => intro y; simp
  | cons h t ih =>
    intro y
    simp only [List.foldl_cons]
    have hmem := ih (max y h)
    rcases List.mem_cons.mp hmem with hm | hm
    · rw [hm]
      rcases max_choice y h with hc | hc
      · rw [hc]; exact List.mem_cons_self _ _
      · rw [hc]; exact List.mem_cons_of_mem _ (List.mem_cons_self _ _)
    · exact List.mem_cons_of_mem _ (List.mem_cons_of_mem _ hm)

/-- The first component of the year range never exceeds the second, in either
branch of the extraction. -/
theorem getYearsFromRows_le (rows : List Row) :
    (getYearsFromRows rows).1 ≤ (getYearsFromRows rows).2 := by
  unfold getYearsFromRows
  cases h : rows.filterMap parsedYearOf with
  | nil => norm_num
  | cons y ys =>
    calc ys.foldl min y ≤ y := foldl_min_le_init ys y
    _ ≤ ys.foldl max y := init_le_foldl_max ys y

/-! ### Small helper facts for the claim theorems -/

theorem strLt_irrefl (a : String) : strLt a a = false := by
  unfold strLt
  induction a.data with
  | nil => simp [charsLt]
  | cons x xs ih => simp [charsLt, ih]

theorem strLe_refl (a : String) : strLe a a = true := by
  simp [strLe, strLt_irrefl]

/-- A comparison on keys whose first component is a negated year proves the
year of the left row is at least the year of the right row, and ties defer
to the remaining components. -/
theorem lexNegYear {leB : β → β → Bool} {ya yb : Int} {ra rb : β}
    (h : lexStep intLt leB (-ya, ra) (-yb, rb) = true) :
    yb ≤ ya ∧ (ya = yb → leB ra rb = true) := by
  rw [lexStep_eq_true_iff] at h
  rcases h with h | ⟨h1, h2, h3⟩
  · simp only [intLt, decide_eq_true_eq] at h
    exact ⟨by omega, fun he => by omega⟩
  · simp only [intLt, decide_eq_false_iff_not, Int.not_lt] at h1 h2
    exact ⟨by omega, fun _ => h3⟩

theorem lexSS_spec {a1 b1 a2 b2 : String}
    (h : lexStep strLt strLe (a1, b1) (a2, b2) = true) :
    strLe a1 a2 = true ∧ (a1 = a2 → strLe b1 b2 = true) := by
  rw [lexStep_eq_true_iff] at h
  rcases h with h | ⟨h1, h2, h3⟩
  · refine ⟨strLt_le h, fun he => ?_⟩
    rw [he] at h
    rw [strLt_irrefl] at h
    cases h
  · have : a1 = a2 := strLt_eq_of_not h1 h2
    exact ⟨this ▸ strLe_refl a1, fun _ => h3⟩

theorem lexSSS_spec {a1 b1 c1 a2 b2 c2 : String}
    (h : lexStep strLt (lexStep strLt strLe) (a1, b1, c1) (a2, b2, c2) = true) :
    strLe a1 a2 = true ∧
      (a1 = a2 → strLe b1 b2 = true ∧ (b1 = b2 → strLe c1 c2 = true)) := by
  rw [lexStep_eq_true_iff] at h
  rcases h with h | ⟨h1, h2, h3⟩
  · refine ⟨strLt_le h, fun he => ?_⟩
    rw [he] at h
    rw [strLt_irrefl] at h
    cases h
  · have : a1 = a2 := strLt_eq_of_not h1 h2
    exact ⟨this ▸ strLe_refl a1, fun _ => lexSS_spec h3⟩

theorem pyInt_empty : pyInt? "" = none := rfl

/-- Spec-side description of the year collection of the temporal range
extractor: every year field present on a row that parses as an integer
(the spec: collect every row's year field that parses as an integer). -/
def specParsedYears (rows : List Row) : List Int :=
  rows.filterMap (fun r => (rowGet r "year").bind pyInt?)

theorem parsedYearOf_eq (r : Row) :
    parsedYearOf r = (rowGet r "year").bind pyInt? := by
  unfold parsedYearOf
  cases h : rowGet r "year" with
  | none => rfl
  | some s =>
    by_cases hs : s = ""
    · subst hs
      simp [pyInt_empty]
    · simp [hs]

theorem filterMap_parsedYearOf_eq (rows : List Row) :
    rows.filterMap parsedYearOf = specParsedYears rows := by
  unfold specParsedYears
  induction rows with
  | nil => rfl
  | cons r rs ih => simp only [List.filterMap_cons, parsedYearOf_eq, ih]

theorem getYearsFromRows_eq (rows : List Row) :
    getYearsFromRows rows =
      match specParsedYears rows with
      | [] => (2000, 2024)
      | y :: ys => (ys.foldl min y, ys.foldl max y) := by
  unfold getYearsFromRows
  rw [filterMap_parsedYearOf_eq]

theorem mkGiiNationalRow_year (cc : String) (r : Row) :
    rowGetD (mkGiiNationalRow cc r) "year" "" = rowGetD r "year" "" := by
  simp [mkGiiNationalRow, rowGetD, rowGet]

theorem mkGiiSubnationalRow_year (cc cn pn : String) (r : Row) :
    rowGetD (mkGiiSubnationalRow cc cn pn r) "year" "" = rowGetD r "year" "" := by
  simp [mkGiiSubnationalRow, rowGetD, rowGet]

theorem mkDimensionNationalRow_year (cc : String) (r : Row) :
    rowGetD (mkDimensionNationalRow cc r) "year" "" = rowGetD r "year" "" := by
  simp [mkDimensionNationalRow, rowGetD, rowGet]

theorem mkDimensionSubnationalRow_year (cc cn pn : String) (r : Row) :
    rowGetD (mkDimensionSubnationalRow cc cn pn r) "year" "" =
      rowGetD r "year" "" := by
  simp [mkDimensionSubnationalRow, rowGetD, rowGet]

theorem mkIndicatorNationalRow_year (cc cn : String) (r : Row) :
    rowGetD (mkIndicatorNationalRow cc cn r) "year" "" = rowGetD r "year" "" := by
  simp [mkIndicatorNationalRow, rowGetD, rowGet]

theorem mkIndicatorSubnationalRow_year (cc cn pn : String) (r : Row) :
    rowGetD (mkIndicatorSubnationalRow cc cn pn r) "year" "" =
      rowGetD r "year" "" := by
  simp [mkIndicatorSubnationalRow, rowGetD, rowGet]

theorem mkSexDisaggRow_year (cc cn pn : String) (r : Row) :
    rowGetD (mkSexDisaggRow cc cn pn r) "year" "" = rowGetD r "year" "" := by
  simp [mkSexDisaggRow, rowGetD, rowGet]

/-! ### Claim C4 -/

/-- C4: for every sequence of combined output rows, the temporal range
extractor returns the minimum and maximum of the set of integer-parsable
year values when that set is non-empty, and exactly (2000, 2024) when no row
has an integer-parsable year, including on the empty input sequence. -/
theorem temporal_range_extractor_spec (rows : List Row) :
    (specParsedYears rows = [] → getYearsFromRows rows = (2000, 2024)) ∧
    (∀ y ∈ specParsedYears rows,
      (getYearsFromRows rows).1 ≤ y ∧ y ≤ (getYearsFromRows rows).2) ∧
    (specParsedYears rows ≠ [] →
      (getYearsFromRows rows).1 ∈ specParsedYears rows ∧
      (getYearsFromRows rows).2 ∈ specParsedYears rows) := by
  rw [getYearsFromRows_eq]
  rcases hsp : specParsedYears rows with _ | ⟨y, ys⟩
  · refine ⟨fun _ => rfl, ?_, ?_⟩
    · intro z hz
      simp at hz
    · intro h
      exact absurd rfl h
  · refine ⟨fun h => absurd h (List.cons_ne_nil y ys), ?_, ?_⟩
    · intro z hz
      constructor
      · show ys.foldl min y ≤ z
        rcases List.mem_cons.mp hz with hz | hz
        · rw [hz]
          exact foldl_min_le_init ys y
        · exact foldl_min_le_mem ys y z hz
      · show z ≤ ys.foldl max y
        rcases List.mem_cons.mp hz with hz | hz
        · rw [hz]
          exact init_le_foldl_max ys y
        · exact mem_le_foldl_max ys y z hz
    · intro _
      exact ⟨foldl_min_mem ys y, foldl_max_mem ys y⟩

/-- Witness for C4: the empty sequence yields the exact fallback, and on a
concrete mixed list the returned bounds bound a concrete member year. -/
theorem temporal_range_extractor_spec_witness :
    getYearsFromRows [] = (2000, 2024) ∧
    (getYearsFromRows [[("year", "2001")], [("year", "abc")], [("year", "1999")]]).1 ≤ 1999 ∧
    (1999 : Int) ≤
      (getYearsFromRows [[("year", "2001")], [("year", "abc")], [("year", "1999")]]).2 :=
  ⟨(temporal_range_extractor_spec []).1 rfl,
   ((temporal_range_extractor_spec
      [[("year", "2001")], [("year", "abc")], [("year", "1999")]]).2.1 1999
      (by decide)).1,
   ((temporal_range_extractor_spec
      [[("year", "2001")], [("year", "abc")], [("year", "1999")]]).2.1 1999
      (by decide)).2⟩

/-! ### Claim C8 -/

/-- C8: with the province mapping sending 12345 to (KHM, Phnom Penh), the
single country-filtered source row with area_id 12345, admin_level province,
admin_name x, year 2019 and gii 0.42, country code KHM and country name
Cambodia, the index-subnational transformer emits exactly one record with
iso3 KHM, country Cambodia, province Phnom Penh, year 2019 and
gender_inequality_index 0.42. -/
theorem gii_subnational_concrete_scenario :
    transform_gii_subnational [(12345, ⟨"KHM", "Phnom Penh"⟩)]
      [[("area_id", "12345"), ("admin_level", "province"), ("admin_name", "x"),
        ("year", "2019"), ("gii", "0.42")]]
      "KHM" "Cambodia" =
    some [[("iso3", "KHM"), ("country", "Cambodia"), ("province", "Phnom Penh"),
      ("year", "2019"), ("gender_inequality_index", "0.42")]] := by
  rfl

/-! ### Claim C9 -/

/-- C9: the per-country pipeline is deterministic.  The embedding is a pure
function of the parsed input files (country list, province mapping, four row
tables, two feature collections): no randomness, clock, or iteration-order
dependence enters (the only Python set, the year set, is consumed solely by
min and max), so two runs on equal inputs give equal results, tables,
orderings and filtered geometry collections included. -/
theorem get_country_data_deterministic (inp1 inp2 : PipelineInput)
    (h : inp1 = inp2) : getCountryData inp1 = getCountryData inp2 :=
  congrArg getCountryData h

/-- A concrete input for the determinism witness. -/
def inpDet : PipelineInput :=
  { countries := [⟨"KHM", "Cambodia", 1⟩]
    province_mapping := [(11, ⟨"KHM", "Kandal"⟩)]
    gii_data := [[("area_id", "11"), ("admin_level", "province"),
      ("year", "2019"), ("gii", "0.2")]]
    dimension_data := []
    indicator_data := []
    sex_disagg_data := []
    country_geojson := []
    province_geojson := [] }

/-- Witness for C9 at a concrete input. -/
theorem get_country_data_deterministic_witness :
    getCountryData inpDet = getCountryData inpDet :=
  get_country_data_deterministic inpDet inpDet rfl

/-! ### Claim C10 -/

/-- C10: the year extraction yields an ordered pair in both branches (the
minimum of a non-empty collected set is at most its maximum, and the fallback
pair is ordered), and consequently every per-country result of the
aggregator satisfies min_year at most max_year. -/
theorem year_range_ordered :
    (∀ rows : List Row, (getYearsFromRows rows).1 ≤ (getYearsFromRows rows).2) ∧
    (∀ (inp : PipelineInput) (results : List CountryResult),
      getCountryData inp = some results →
      ∀ R ∈ results, R.min_year ≤ R.max_year) := by
  refine ⟨getYearsFromRows_le, ?_⟩
  intro inp results h R hR
  obtain ⟨c, _, hc⟩ := processAll_mem h R hR
  obtain ⟨_, _, _, _, _, _, _, _, _, _, _, hmin, hmax⟩ := processCountry_spec hc
  rw [hmin, hmax]
  exact getYearsFromRows_le _

/-- A one-country input with no data rows, for the C10 witness. -/
def inpYr : PipelineInput :=
  { countries := [⟨"KHM", "Cambodia", 1⟩]
    province_mapping := []
    gii_data := []
    dimension_data := []
    indicator_data := []
    sex_disagg_data := []
    country_geojson := []
    province_geojson := [] }

/-- The result the pipeline produces on inpYr: empty tables and the
fallback year range. -/
def resYr : CountryResult :=
  { iso3 := "KHM"
    name := "Cambodia"
    gii_national := []
    gii_subnational := []
    dimension_national := []
    dimension_subnational := []
    indicator_national := []
    indicator_subnational := []
    sex_disaggregated := []
    country_boundary := []
    province_boundaries := []
    min_year := 2000
    max_year := 2024 }

/-- Witness for C10 at a concrete pipeline run. -/
theorem year_range_ordered_witness : resYr.min_year ≤ resYr.max_year :=
  year_range_ordered.2 inpYr [resYr] rfl resYr (List.mem_cons_self _ _)

/-! ### Claim C3 -/

/-- The per-row keep decision agrees with the declarative membership
predicate of the spec whenever the reference area identifiers are
non-negative (so the -1 default of an absent area_id field can never
match). -/
theorem keepRow_iff {cid : Int} {provIds : List Int} (hpos : 0 ≤ cid)
    (hprov : ∀ n ∈ provIds, 0 ≤ n) (r : Row) :
    keepRow (some cid) provIds r = true ↔
      (rowGetD r "admin_level" "" = "country" ∧
        (rowGet r "area_id").bind pyInt? = some cid) ∨
      (rowGetD r "admin_level" "" = "province" ∧
        ∃ n, (rowGet r "area_id").bind pyInt? = some n ∧ n ∈ provIds) := by
  unfold keepRow pyAreaId
  cases hA : rowGet r "area_id" with
  | none =>
    have h1 : ¬ (-1 : Int) = cid := by omega
    have h2 : (-1 : Int) ∉ provIds := fun hm => absurd (hprov _ hm) (by omega)
    simp [h1, h2]
  | some s =>
    cases hP : pyInt? s with
    | none => simp [hP]
    | some a =>
      simp only [Option.some_bind, hP, Bool.or_eq_true, Bool.and_eq_true,
        decide_eq_true_eq, Option.some.injEq]
      constructor
      · rintro (⟨hal, hac⟩ | ⟨hal, ham⟩)
        · exact Or.inl ⟨hal, hac⟩
        · exact Or.inr ⟨hal, a, rfl, ham⟩
      · rintro (⟨hal, hac⟩ | ⟨hal, n, hn, hm⟩)
        · exact Or.inl ⟨hal, hac⟩
        · cases hn
          exact Or.inr ⟨hal, hm⟩

/-- C3: the tabular partitioner keeps a row exactly when its admin_level is
country and its area_id parses to the target country's area_id, or its
admin_level is province and its area_id parses to a province area_id mapped
to the target country; a row without an integer-parsable area_id value is
excluded (the filter is a total function, so no error is raised).  The
hypotheses record that the reference data's area identifiers are
non-negative, so the internal -1 default for an absent field matches
nothing. -/
theorem filter_csv_by_country_spec (countries : List Country) (m : ProvMap)
    (rows : List Row) (cc : String) (cid : Int)
    (hcid : getCountryAreaId countries cc = some cid) (hpos : 0 ≤ cid)
    (hprov : ∀ n ∈ provinceAreaIds m cc, 0 ≤ n) (r : Row) :
    r ∈ filterCsvByCountry countries m rows cc ↔
      r ∈ rows ∧
      ((rowGetD r "admin_level" "" = "country" ∧
          (rowGet r "area_id").bind pyInt? = some cid) ∨
       (rowGetD r "admin_level" "" = "province" ∧
          ∃ n, (rowGet r "area_id").bind pyInt? = some n ∧
            n ∈ provinceAreaIds m cc)) := by
  unfold filterCsvByCountry
  rw [hcid, List.mem_filter]
  exact and_congr_right (fun _ => keepRow_iff hpos hprov r)

/-- Reference data for the C3 witness. -/
def countriesC3 : List Country := [⟨"KHM", "Cambodia", 1⟩]

/-- Province mapping for the C3 witness. -/
def provMapC3 : ProvMap := [(10, ⟨"KHM", "Phnom Penh"⟩)]

/-- A province-level row for the C3 witness. -/
def rowC3 : Row := [("area_id", "10"), ("admin_level", "province")]

/-- Witness for C3: the hypotheses hold for the concrete reference data and
the membership equivalence is obtained for a concrete row. -/
theorem filter_csv_by_country_spec_witness :
    getCountryAreaId countriesC3 "KHM" = some 1 ∧ (0 : Int) ≤ 1 ∧
    (∀ n ∈ provinceAreaIds provMapC3 "KHM", 0 ≤ n) ∧
    (rowC3 ∈ filterCsvByCountry countriesC3 provMapC3 [rowC3] "KHM" ↔
      rowC3 ∈ [rowC3] ∧
      ((rowGetD rowC3 "admin_level" "" = "country" ∧
          (rowGet rowC3 "area_id").bind pyInt? = some 1) ∨
       (rowGetD rowC3 "admin_level" "" = "province" ∧
          ∃ n, (rowGet rowC3 "area_id").bind pyInt? = some n ∧
            n ∈ provinceAreaIds provMapC3 "KHM"))) :=
  ⟨rfl, by omega, by decide,
   filter_csv_by_country_spec countriesC3 provMapC3 [rowC3] "KHM" 1 rfl
     (by omega) (by decide) rowC3⟩

/-! ### Claim C5 -/

/-- Adjacency claimed for the index-subnational table: year non-increasing
and, within equal years, province lexicographically non-decreasing. -/
def adjGiiSub (a b : Row) : Prop :=
  ∀ ya yb : Int, pyInt? (rowGetD a "year" "") = some ya →
    pyInt? (rowGetD b "year" "") = some yb →
    yb ≤ ya ∧ (ya = yb →
      strLe (rowGetD a "province" "") (rowGetD b "province" "") = true)

/-- Adjacency claimed for the dimension-subnational table: year
non-increasing, then province, then dimension_category, then dimension,
each non-decreasing within equal earlier keys. -/
def adjDimSub (a b : Row) : Prop :=
  ∀ ya yb : Int, pyInt? (rowGetD a "year" "") = some ya →
    pyInt? (rowGetD b "year" "") = some yb →
    yb ≤ ya ∧ (ya = yb →
      strLe (rowGetD a "province" "") (rowGetD b "province" "") = true ∧
      (rowGetD a "province" "" = rowGetD b "province" "" →
        strLe (rowGetD a "dimension_category" "")
          (rowGetD b "dimension_category" "") = true ∧
        (rowGetD a "dimension_category" "" = rowGetD b "dimension_category" "" →
          strLe (rowGetD a "dimension" "") (rowGetD b "dimension" "") = true)))

/-- Adjacency claimed for the indicator-subnational table: year
non-increasing, then province, then indicator_category, then indicator. -/
def adjIndSub (a b : Row) : Prop :=
  ∀ ya yb : Int, pyInt? (rowGetD a "year" "") = some ya →
    pyInt? (rowGetD b "year" "") = some yb →
    yb ≤ ya ∧ (ya = yb →
      strLe (rowGetD a "province" "") (rowGetD b "province" "") = true ∧
      (rowGetD a "province" "" = rowGetD b "province" "" →
        strLe (rowGetD a "indicator_category" "")
          (rowGetD b "indicator_category" "") = true ∧
        (rowGetD a "indicator_category" "" = rowGetD b "indicator_category" "" →
          strLe (rowGetD a "indicator" "") (rowGetD b "indicator" "") = true)))

/-- Adjacency claimed for the sex-disaggregated table: year non-increasing,
then province, then indicator, each non-decreasing within equal earlier
keys. -/
def adjSexDis (a b : Row) : Prop :=
  ∀ ya yb : Int, pyInt? (rowGetD a "year" "") = some ya →
    pyInt? (rowGetD b "year" "") = some yb →
    yb ≤ ya ∧ (ya = yb →
      strLe (rowGetD a "province" "") (rowGetD b "province" "") = true ∧
      (rowGetD a "province" "" = rowGetD b "province" "" →
        strLe (rowGetD a "indicator" "") (rowGetD b "indicator" "") = true))

/-- C5: whenever the subnational transformers and the sex-disaggregated
transformer succeed, every pair of adjacent output rows has non-increasing
integer year; within equal years the province is lexicographically
non-decreasing, and the remaining schema-specific keys (category, then
dimension or indicator name) are non-decreasing within equal earlier keys. -/
theorem subnational_sort_order :
    (∀ (m : ProvMap) (rows : List Row) (cc cn : String) (out : List Row),
      transform_gii_subnational m rows cc cn = some out →
      List.Chain' adjGiiSub out) ∧
    (∀ (m : ProvMap) (rows : List Row) (cc cn : String) (out : List Row),
      transform_dimension_subnational m rows cc cn = some out →
      List.Chain' adjDimSub out) ∧
    (∀ (m : ProvMap) (rows : List Row) (cc cn : String) (out : List Row),
      transform_indicator_subnational m rows cc cn = some out →
      List.Chain' adjIndSub out) ∧
    (∀ (m : ProvMap) (rows : List Row) (cc cn : String) (out : List Row),
      transform_sex_disaggregated m rows cc cn = some out →
      List.Chain' adjSexDis out) := by
  refine ⟨?_, ?_, ?_, ?_⟩
  · intro m rows cc cn out h
    have hp := runTransform_pairwise keyLe2_trans keyLe2_total h
    refine List.Pairwise.chain' (hp.imp ?_)
    rintro a b ⟨ka, kb, hka, hkb, hle⟩
    unfold giiSubKey at hka hkb
    rw [Option.map_eq_some'] at hka hkb
    obtain ⟨ya, hya, hkaeq⟩ := hka
    obtain ⟨yb, hyb, hkbeq⟩ := hkb
    subst hkaeq
    subst hkbeq
    unfold keyLe2 at hle
    intro ya' yb' hya' hyb'
    rw [hya] at hya'
    rw [hyb] at hyb'
    cases hya'
    cases hyb'
    exact lexNegYear hle
  · intro m rows cc cn out h
    have hp := runTransform_pairwise keyLe4_trans keyLe4_total h
    refine List.Pairwise.chain' (hp.imp ?_)
    rintro a b ⟨ka, kb, hka, hkb, hle⟩
    unfold dimSubKey at hka hkb
    rw [Option.map_eq_some'] at hka hkb
    obtain ⟨ya, hya, hkaeq⟩ := hka
    obtain ⟨yb, hyb, hkbeq⟩ := hkb
    subst hkaeq
    subst hkbeq
    unfold keyLe4 at hle
    intro ya' yb' hya' hyb'
    rw [hya] at hya'
    rw [hyb] at hyb'
    cases hya'
    cases hyb'
    obtain ⟨h1, h2⟩ := lexNegYear hle
    exact ⟨h1, fun he => lexSSS_spec (h2 he)⟩
  · intro m rows cc cn out h
    have hp := runTransform_pairwise keyLe4_trans keyLe4_total h
    refine List.Pairwise.chain' (hp.imp ?_)
    rintro a b ⟨ka, kb, hka, hkb, hle⟩
    unfold indSubKey at hka hkb
    rw [Option.map_eq_some'] at hka hkb
    obtain ⟨ya, hya, hkaeq⟩ := hka
    obtain ⟨yb, hyb, hkbeq⟩ := hkb
    subst hkaeq
    subst hkbeq
    unfold keyLe4 at hle
    intro ya' yb' hya' hyb'
    rw [hya] at hya'
    rw [hyb] at hyb'
    cases hya'
    cases hyb'
    obtain ⟨h1, h2⟩ := lexNegYear hle
    exact ⟨h1, fun he => lexSSS_spec (h2 he)⟩
  · intro m rows cc cn out h
    have hp := runTransform_pairwise keyLe3_trans keyLe3_total h
    refine List.Pairwise.chain' (hp.imp ?_)
    rintro a b ⟨ka, kb, hka, hkb, hle⟩
    unfold sexDisaggKey at hka hkb
    rw [Option.map_eq_some'] at hka hkb
    obtain ⟨ya, hya, hkaeq⟩ := hka
    obtain ⟨yb, hyb, hkbeq⟩ := hkb
    subst hkaeq
    subst hkbeq
    unfold keyLe3 at hle
    intro ya' yb' hya' hyb'
    rw [hya] at hya'
    rw [hyb] at hyb'
    cases hya'
    cases hyb'
    obtain ⟨h1, h2⟩ := lexNegYear hle
    exact ⟨h1, fun he => lexSS_spec (h2 he)⟩

/-- Province mapping used by the C5 witness runs. -/
def mapC5 : ProvMap := [(11, ⟨"KHM", "Kandal"⟩), (12, ⟨"KHM", "Takeo"⟩)]

/-- Index-subnational input rows for the C5 witness. -/
def rowsC5gii : List Row :=
  [[("area_id", "11"), ("admin_level", "province"), ("year", "2019"), ("gii", "0.2")],
   [("area_id", "12"), ("admin_level", "province"), ("year", "2020"), ("gii", "0.3")]]

/-- Index-subnational output of the C5 witness run. -/
def outC5gii : List Row :=
  [[("iso3", "KHM"), ("country", "Cambodia"), ("province", "Takeo"),
    ("year", "2020"), ("gender_inequality_index", "0.3")],
   [("iso3", "KHM"), ("country", "Cambodia"), ("province", "Kandal"),
    ("year", "2019"), ("gender_inequality_index", "0.2")]]

/-- Dimension-subnational input rows for the C5 witness. -/
def rowsC5dim : List Row :=
  [[("area_id", "11"), ("admin_level", "province"), ("year", "2019"),
    ("", "catA"), ("dimension_name", "dimA"), ("F/M", "F"), ("value", "1"),
    ("Unit", "u")],
   [("area_id", "12"), ("admin_level", "province"), ("year", "2020"),
    ("", "catB"), ("dimension_name", "dimB"), ("F/M", "M"), ("value", "2"),
    ("Unit", "u")]]

/-- Dimension-subnational output of the C5 witness run. -/
def outC5dim : List Row :=
  [[("iso3", "KHM"), ("country", "Cambodia"), ("province", "Takeo"),
    ("dimension_category", "catB"), ("dimension", "dimB"), ("gender", "M"),
    ("year", "2020"), ("value", "2"), ("unit", "u")],
   [("iso3", "KHM"), ("country", "Cambodia"), ("province", "Kandal"),
    ("dimension_category", "catA"), ("dimension", "dimA"), ("gender", "F"),
    ("year", "2019"), ("value", "1"), ("unit", "u")]]

/-- Indicator-subnational input rows for the C5 witness. -/
def rowsC5ind : List Row :=
  [[("area_id", "11"), ("admin_level", "province"), ("year", "2019"),
    ("common_name", "cA"), ("indicator_name", "iA"), ("F/M", "F"),
    ("value", "1"), ("Unit", "u")],
   [("area_id", "12"), ("admin_level", "province"), ("year", "2020"),
    ("common_name", "cB"), ("indicator_name", "iB"), ("F/M", "M"),
    ("value", "2"), ("Unit", "u")]]

/-- Indicator-subnational output of the C5 witness run. -/
def outC5ind : List Row :=
  [[("iso3", "KHM"), ("country", "Cambodia"), ("province", "Takeo"),
    ("indicator_category", "cB"), ("indicator", "iB"), ("gender", "M"),
    ("year", "2020"), ("value", "2"), ("unit", "u")],
   [("iso3", "KHM"), ("country", "Cambodia"), ("province", "Kandal"),
    ("indicator_category", "cA"), ("indicator", "iA"), ("gender", "F"),
    ("year", "2019"), ("value", "1"), ("unit", "u")]]

/-- Sex-disaggregated input rows for the C5 witness. -/
def rowsC5sex : List Row :=
  [[("area_id", "11"), ("admin_level", "province"), ("year", "2019"),
    ("dataset_name_l1", "dA"), ("dataset_name_l2", "sA"), ("F/M", "F"),
    ("value", "1"), ("Unit", "u"), ("calc", "c"), ("Definition", "d")],
   [("area_id", "12"), ("admin_level", "province"), ("year", "2020"),
    ("dataset_name_l1", "dB"), ("dataset_name_l2", "sB"), ("F/M", "M"),
    ("value", "2"), ("Unit", "u"), ("calc", "c"), ("Definition", "d")]]

/-- Sex-disaggregated output of the C5 witness run. -/
def outC5sex : List Row :=
  [[("iso3", "KHM"), ("country", "Cambodia"), ("province", "Takeo"),
    ("indicator", "dB"), ("sub_indicator", "sB"), ("gender", "M"),
    ("year", "2020"), ("value", "2"), ("unit", "u"), ("calculation_type", "c"),
    ("definition", "d")],
   [("iso3", "KHM"), ("country", "Cambodia"), ("province", "Kandal"),
    ("indicator", "dA"), ("sub_indicator", "sA"), ("gender", "F"),
    ("year", "2019"), ("value", "1"), ("unit", "u"), ("calculation_type", "c"),
    ("definition", "d")]]

/-- Witness for C5: concrete two-row runs of all four transformers, whose
outputs satisfy the adjacency chains. -/
theorem subnational_sort_order_witness :
    List.Chain' adjGiiSub outC5gii ∧ List.Chain' adjDimSub outC5dim ∧
    List.Chain' adjIndSub outC5ind ∧ List.Chain' adjSexDis outC5sex :=
  ⟨subnational_sort_order.1 mapC5 rowsC5gii "KHM" "Cambodia" outC5gii rfl,
   subnational_sort_order.2.1 mapC5 rowsC5dim "KHM" "Cambodia" outC5dim rfl,
   subnational_sort_order.2.2.1 mapC5 rowsC5ind "KHM" "Cambodia" outC5ind rfl,
   subnational_sort_order.2.2.2 mapC5 rowsC5sex "KHM" "Cambodia" outC5sex rfl⟩

/-! ### Claim C1 -/

/-- A country-level row whose year does not parse as an integer. -/
def rowBadYear : Row :=
  [("area_id", "1"), ("admin_level", "country"), ("admin_name", "Cambodia"),
   ("year", "abc"), ("gii", "0.5")]

/-- Counterexample to C1 as stated: on the single country-filtered row with
year abc, the national GII transformer does not return the sorted output
without the row (which would be some of the empty list); it raises, because
the sort key int(year) raises ValueError and nothing catches it. -/
theorem year_drop_counterexample :
    transform_gii_national [rowBadYear] "KHM" = none := rfl

/-- C1 amended: each of the seven schema transformers raises an error
(modelled as none) whenever some row retained by its admin-level check -
every row, for the sex-disaggregated transformer - has a year value that is
missing or does not parse as an integer; such a row is never silently
dropped from the sorted output. -/
theorem year_unparsable_raises :
    (∀ (rows : List Row) (cc : String),
      (∃ r ∈ rows, retainCountry r = true ∧
        pyInt? (rowGetD r "year" "") = none) →
      transform_gii_national rows cc = none) ∧
    (∀ (m : ProvMap) (rows : List Row) (cc cn : String),
      (∃ r ∈ rows, retainProvince r = true ∧
        pyInt? (rowGetD r "year" "") = none) →
      transform_gii_subnational m rows cc cn = none) ∧
    (∀ (rows : List Row) (cc : String),
      (∃ r ∈ rows, retainCountry r = true ∧
        pyInt? (rowGetD r "year" "") = none) →
      transform_dimension_national rows cc = none) ∧
    (∀ (m : ProvMap) (rows : List Row) (cc cn : String),
      (∃ r ∈ rows, retainProvince r = true ∧
        pyInt? (rowGetD r "year" "") = none) →
      transform_dimension_subnational m rows cc cn = none) ∧
    (∀ (rows : List Row) (cc cn : String),
      (∃ r ∈ rows, retainCountry r = true ∧
        pyInt? (rowGetD r "year" "") = none) →
      transform_indicator_national rows cc cn = none) ∧
    (∀ (m : ProvMap) (rows : List Row) (cc cn : String),
      (∃ r ∈ rows, retainProvince r = true ∧
        pyInt? (rowGetD r "year" "") = none) →
      transform_indicator_subnational m rows cc cn = none) ∧
    (∀ (m : ProvMap) (rows : List Row) (cc cn : String),
      (∃ r ∈ rows, pyInt? (rowGetD r "year" "") = none) →
      transform_sex_disaggregated m rows cc cn = none) := by
  refine ⟨?_, ?_, ?_, ?_, ?_, ?_, ?_⟩
  · rintro rows cc ⟨r, hr, hret, hbad⟩
    unfold transform_gii_national
    apply runTransform_none_of_badkey hr hret
    intro r' hmk
    cases hmk
    unfold giiNatKey
    rw [mkGiiNationalRow_year, hbad]
    rfl
  · rintro m rows cc cn ⟨r, hr, hret, hbad⟩
    unfold transform_gii_subnational
    apply runTransform_none_of_badkey hr hret
    intro r' hmk
    rw [Option.map_eq_some'] at hmk
    obtain ⟨pn, _, hr'⟩ := hmk
    subst hr'
    unfold giiSubKey
    rw [mkGiiSubnationalRow_year, hbad]
    rfl
  · rintro rows cc ⟨r, hr, hret, hbad⟩
    unfold transform_dimension_national
    apply runTransform_none_of_badkey hr hret
    intro r' hmk
    cases hmk
    unfold dimNatKey
    rw [mkDimensionNationalRow_year, hbad]
    rfl
  · rintro m rows cc cn ⟨r, hr, hret, hbad⟩
    unfold transform_dimension_subnational
    apply runTransform_none_of_badkey hr hret
    intro r' hmk
    rw [Option.map_eq_some'] at hmk
    obtain ⟨pn, _, hr'⟩ := hmk
    subst hr'
    unfold dimSubKey
    rw [mkDimensionSubnationalRow_year, hbad]
    rfl
  · rintro rows cc cn ⟨r, hr, hret, hbad⟩
    unfold transform_indicator_national
    apply runTransform_none_of_badkey hr hret
    intro r' hmk
    cases hmk
    unfold indNatKey
    rw [mkIndicatorNationalRow_year, hbad]
    rfl
  · rintro m rows cc cn ⟨r, hr, hret, hbad⟩
    unfold transform_indicator_subnational
    apply runTransform_none_of_badkey hr hret
    intro r' hmk
    rw [Option.map_eq_some'] at hmk
    obtain ⟨pn, _, hr'⟩ := hmk
    subst hr'
    unfold indSubKey
    rw [mkIndicatorSubnationalRow_year, hbad]
    rfl
  · rintro m rows cc cn ⟨r, hr, hbad⟩
    unfold transform_sex_disaggregated
    apply runTransform_none_of_badkey hr rfl
    intro r' hmk
    rw [Option.map_eq_some'] at hmk
    obtain ⟨pn, _, hr'⟩ := hmk
    subst hr'
    unfold sexDisaggKey
    rw [mkSexDisaggRow_year, hbad]
    rfl

/-- A province-level row with an unparsable year and an empty area_id. -/
def rowBadYearProv : Row :=
  [("area_id", ""), ("admin_level", "province"), ("year", "abc"), ("gii", "0.5")]

/-- A sex-disaggregated row with an unparsable year. -/
def rowBadYearSex : Row := [("year", "abc"), ("dataset_name_l1", "dA")]

/-- Witness for C1 amended: each of the seven transformers raises on a
concrete retained row with year abc. -/
theorem year_unparsable_raises_witness :
    transform_gii_national [rowBadYear] "XKX" = none ∧
    transform_gii_subnational [] [rowBadYearProv] "KHM" "Cambodia" = none ∧
    transform_dimension_national [rowBadYear] "KHM" = none ∧
    transform_dimension_subnational [] [rowBadYearProv] "KHM" "Cambodia" = none ∧
    transform_indicator_national [rowBadYear] "KHM" "Cambodia" = none ∧
    transform_indicator_subnational [] [rowBadYearProv] "KHM" "Cambodia" = none ∧
    transform_sex_disaggregated [] [rowBadYearSex] "KHM" "Cambodia" = none :=
  ⟨year_unparsable_raises.1 [rowBadYear] "XKX"
      ⟨rowBadYear, List.mem_cons_self _ _, rfl, rfl⟩,
   year_unparsable_raises.2.1 [] [rowBadYearProv] "KHM" "Cambodia"
      ⟨rowBadYearProv, List.mem_cons_self _ _, rfl, rfl⟩,
   year_unparsable_raises.2.2.1 [rowBadYear] "KHM"
      ⟨rowBadYear, List.mem_cons_self _ _, rfl, rfl⟩,
   year_unparsable_raises.2.2.2.1 [] [rowBadYearProv] "KHM" "Cambodia"
      ⟨rowBadYearProv, List.mem_cons_self _ _, rfl, rfl⟩,
   year_unparsable_raises.2.2.2.2.1 [rowBadYear] "KHM" "Cambodia"
      ⟨rowBadYear, List.mem_cons_self _ _, rfl, rfl⟩,
   year_unparsable_raises.2.2.2.2.2.1 [] [rowBadYearProv] "KHM" "Cambodia"
      ⟨rowBadYearProv, List.mem_cons_self _ _, rfl, rfl⟩,
   year_unparsable_raises.2.2.2.2.2.2 [] [rowBadYearSex] "KHM" "Cambodia"
      ⟨rowBadYearSex, List.mem_cons_self _ _, rfl⟩⟩

/-! ### Claim C2 -/

/-- A pipeline input whose single GII row carries an admin_name different
from the processed country's name. -/
def inpC2 : PipelineInput :=
  { countries := [⟨"KHM", "Cambodia", 1⟩]
    province_mapping := []
    gii_data := [[("area_id", "1"), ("admin_level", "country"),
      ("admin_name", "Narnia"), ("year", "2000"), ("gii", "0.5")]]
    dimension_data := []
    indicator_data := []
    sex_disagg_data := []
    country_geojson := []
    province_geojson := [] }

/-- Counterexample to C2 as stated: the processed country is named Cambodia,
yet the gii-national output row's country field is Narnia, copied from the
source row's admin_name; the country field of that table does not equal the
name of the country being processed. -/
theorem country_field_counterexample :
    inpC2.countries.map Country.name = ["Cambodia"] ∧
    (getCountryData inpC2).map
        (List.map (fun R => R.gii_national.map (fun r => rowGetD r "country" "")))
      = some [["Narnia"]] :=
  ⟨rfl, rfl⟩

/-- C2 amended: every output row of every table carries the processed
country's iso3 in its iso3 field; the country field equals the processed
country's name in the gii-subnational, dimension-subnational,
indicator-national, indicator-subnational and sex-disaggregated tables,
while in gii-national and dimension-national it is copied from the source
row's admin_name and need not equal the country's name. -/
theorem output_rows_country_scoped :
    ∀ (inp : PipelineInput) (results : List CountryResult),
      getCountryData inp = some results →
      ∀ R ∈ results,
        (∃ c ∈ inp.countries, R.iso3 = c.iso3 ∧ R.name = c.name) ∧
        (∀ r ∈ R.gii_national, rowGetD r "iso3" "" = R.iso3) ∧
        (∀ r ∈ R.gii_subnational,
          rowGetD r "iso3" "" = R.iso3 ∧ rowGetD r "country" "" = R.name) ∧
        (∀ r ∈ R.dimension_national, rowGetD r "iso3" "" = R.iso3) ∧
        (∀ r ∈ R.dimension_subnational,
          rowGetD r "iso3" "" = R.iso3 ∧ rowGetD r "country" "" = R.name) ∧
        (∀ r ∈ R.indicator_national,
          rowGetD r "iso3" "" = R.iso3 ∧ rowGetD r "country" "" = R.name) ∧
        (∀ r ∈ R.indicator_subnational,
          rowGetD r "iso3" "" = R.iso3 ∧ rowGetD r "country" "" = R.name) ∧
        (∀ r ∈ R.sex_disaggregated,
          rowGetD r "iso3" "" = R.iso3 ∧ rowGetD r "country" "" = R.name) := by
  intro inp results h R hR
  obtain ⟨c, hcmem, hc⟩ := processAll_mem h R hR
  obtain ⟨hiso, hname, h1, h2, h3, h4, h5, h6, h7, _, _, _, _⟩ :=
    processCountry_spec hc
  refine ⟨⟨c, hcmem, hiso, hname⟩, ?_, ?_, ?_, ?_, ?_, ?_, ?_⟩
  · intro r hr
    rw [hiso]
    exact transform_gii_national_fields h1 r hr
  · intro r hr
    rw [hiso, hname]
    exact transform_gii_subnational_fields h2 r hr
  · intro r hr
    rw [hiso]
    exact transform_dimension_national_fields h3 r hr
  · intro r hr
    rw [hiso, hname]
    exact transform_dimension_subnational_fields h4 r hr
  · intro r hr
    rw [hiso, hname]
    exact transform_indicator_national_fields h5 r hr
  · intro r hr
    rw [hiso, hname]
    exact transform_indicator_subnational_fields h6 r hr
  · intro r hr
    rw [hiso, hname]
    exact transform_sex_disaggregated_fields h7 r hr

/-- The gii-national record produced on inpC2. -/
def narniaOut : Row :=
  [("iso3", "KHM"), ("country", "Narnia"), ("year", "2000"),
   ("gender_inequality_index", "0.5")]

/-- The country result the pipeline produces on inpC2. -/
def resC2 : CountryResult :=
  { iso3 := "KHM"
    name := "Cambodia"
    gii_national := [narniaOut]
    gii_subnational := []
    dimension_national := []
    dimension_subnational := []
    indicator_national := []
    indicator_subnational := []
    sex_disaggregated := []
    country_boundary := []
    province_boundaries := []
    min_year := 2000
    max_year := 2000 }

/-- Witness for C2 amended: on the concrete run over inpC2 the gii-national
record carries the processed country's iso3. -/
theorem output_rows_country_scoped_witness :
    rowGetD narniaOut "iso3" "" = resC2.iso3 :=
  (output_rows_country_scoped inpC2 [resC2] rfl resC2
    (List.mem_cons_self _ _)).2.1 narniaOut (List.mem_cons_self _ _)

/-! ### Claim C6 -/

/-- A retained province-level row whose area_id is non-empty but not an
integer. -/
def rowBadArea : Row :=
  [("area_id", "abc"), ("admin_level", "province"), ("year", "2019"),
   ("gii", "0.4")]

/-- Counterexample to C6 as stated: on a retained row whose area_id is abc,
province resolution does not degrade to the empty string - int(area_id)
raises, so the subnational transformer produces no output at all instead of
a record with an empty province. -/
theorem province_resolution_counterexample :
    transform_gii_subnational [] [rowBadArea] "KHM" "Cambodia" = none := rfl

/-- C6 amended: for a retained row, an absent or empty area_id yields an
empty province, an integer-parsable area_id yields the mapped name when the
mapping has it and the empty string otherwise, and in all those cases the
row is kept (one output record per retained row); but a non-empty area_id
that does not parse as an integer makes the transformer raise instead. -/
theorem province_resolution_spec :
    (∀ m : ProvMap, resolveProvince m "" = some "") ∧
    (∀ (m : ProvMap) (s : String) (n : Int) (e : ProvEntry),
      pyInt? s = some n → provLookup m n = some e →
      resolveProvince m s = some e.name) ∧
    (∀ (m : ProvMap) (s : String) (n : Int),
      pyInt? s = some n → provLookup m n = none →
      resolveProvince m s = some "") ∧
    (∀ (m : ProvMap) (s : String), s ≠ "" → pyInt? s = none →
      resolveProvince m s = none) ∧
    (∀ (m : ProvMap) (rows : List Row) (cc cn : String) (out : List Row),
      transform_gii_subnational m rows cc cn = some out →
      ∀ r ∈ rows, retainProvince r = true →
        ∃ pn, resolveProvince m (rowGetD r "area_id" "") = some pn ∧
          mkGiiSubnationalRow cc cn pn r ∈ out) := by
  refine ⟨fun m => rfl, ?_, ?_, ?_, ?_⟩
  · intro m s n e hp hl
    by_cases hs : s = ""
    · subst hs
      rw [pyInt_empty] at hp
      cases hp
    · unfold resolveProvince
      rw [if_neg hs, hp]
      simp [hl]
  · intro m s n hp hl
    by_cases hs : s = ""
    · subst hs
      rw [pyInt_empty] at hp
      cases hp
    · unfold resolveProvince
      rw [if_neg hs, hp]
      simp [hl]
  · intro m s hs hp
    unfold resolveProvince
    rw [if_neg hs, hp]
  · intro m rows cc cn out h r hr hret
    obtain ⟨b, hmk, hbmem⟩ := runTransform_mem_of h r hr hret
    rw [Option.map_eq_some'] at hmk
    obtain ⟨pn, hres, hb⟩ := hmk
    exact ⟨pn, hres, hb ▸ hbmem⟩

/-- Province mapping for the C6 witness. -/
def mapC6 : ProvMap := [(7, ⟨"KHM", "Battambang"⟩)]

/-- A retained row with a mapped area_id for the C6 witness. -/
def rowC6 : Row :=
  [("area_id", "7"), ("admin_level", "province"), ("year", "2019"),
   ("gii", "0.4")]

/-- Output of the C6 witness transformer run. -/
def outC6 : List Row :=
  [[("iso3", "KHM"), ("country", "Cambodia"), ("province", "Battambang"),
    ("year", "2019"), ("gender_inequality_index", "0.4")]]

/-- Witness for C6 amended: concrete resolutions in all four regimes and a
concrete kept row. -/
theorem province_resolution_spec_witness :
    resolveProvince mapC6 "" = some "" ∧
    resolveProvince mapC6 "7" = some "Battambang" ∧
    resolveProvince mapC6 "8" = some "" ∧
    resolveProvince mapC6 "abc" = none ∧
    (∃ pn, resolveProvince mapC6 (rowGetD rowC6 "area_id" "") = some pn ∧
      mkGiiSubnationalRow "KHM" "Cambodia" pn rowC6 ∈ outC6) :=
  ⟨province_resolution_spec.1 mapC6,
   province_resolution_spec.2.1 mapC6 "7" 7 ⟨"KHM", "Battambang"⟩ rfl rfl,
   province_resolution_spec.2.2.1 mapC6 "8" 8 rfl rfl,
   province_resolution_spec.2.2.2.1 mapC6 "abc" (by decide) rfl,
   province_resolution_spec.2.2.2.2 mapC6 [rowC6] "KHM" "Cambodia" outC6 rfl
     rowC6 (List.mem_cons_self _ _) rfl⟩

/-! ### Claim C7 -/

/-- A sex-disaggregated source row that matches the country by area but has
no admin_level field. -/
def rowC7 : Row :=
  [("area_id", "1"), ("dataset_name_l1", "literacy"), ("year", "2020"),
   ("value", "5")]

/-- A pipeline input whose only data row is rowC7. -/
def inpC7 : PipelineInput :=
  { countries := [⟨"KHM", "Cambodia", 1⟩]
    province_mapping := []
    gii_data := []
    dimension_data := []
    indicator_data := []
    sex_disagg_data := [rowC7]
    country_geojson := []
    province_geojson := [] }

/-- Counterexample to C7 as stated: rowC7's area_id parses to the target
country's area_id, so it matches the country by area, yet with admin_level
absent the country filter drops it before the transform stage and the
sex-disaggregated output table is empty. -/
theorem sex_disagg_area_only_counterexample :
    (rowGet rowC7 "area_id").bind pyInt? = some 1 ∧
    getCountryAreaId inpC7.countries "KHM" = some 1 ∧
    rowGet rowC7 "admin_level" = none ∧
    (getCountryData inpC7).map (List.map CountryResult.sex_disaggregated)
      = some [[]] :=
  ⟨rfl, rfl, rfl, rfl⟩

/-- C7 amended: inclusion in the sex-disaggregated table is decided by the
same partition predicate as the other tables - a row whose admin_level is
neither country nor province never passes the country filter - and only the
transform stage applies no admin_level check, emitting one record per
partitioned row. -/
theorem sex_disagg_partition_spec :
    (∀ (countries : List Country) (m : ProvMap) (rows : List Row)
      (cc : String) (r : Row),
      rowGetD r "admin_level" "" ≠ "country" →
      rowGetD r "admin_level" "" ≠ "province" →
      r ∉ filterCsvByCountry countries m rows cc) ∧
    (∀ (m : ProvMap) (rows : List Row) (cc cn : String) (out : List Row),
      transform_sex_disaggregated m rows cc cn = some out →
      out.length = rows.length) := by
  constructor
  · intro countries m rows cc r h1 h2 hmem
    unfold filterCsvByCountry at hmem
    rw [List.mem_filter] at hmem
    obtain ⟨_, hkeep⟩ := hmem
    unfold keepRow at hkeep
    cases hA : pyAreaId r with
    | none =>
      rw [hA] at hkeep
      cases hkeep
    | some a =>
      rw [hA] at hkeep
      simp only [Bool.or_eq_true, Bool.and_eq_true, decide_eq_true_eq] at hkeep
      rcases hkeep with ⟨h, _⟩ | ⟨h, _⟩
      · exact h1 h
      · exact h2 h
  · intro m rows cc cn out h
    have hlen := runTransform_length h
    rw [List.filter_true] at hlen
    exact hlen

/-- Country list for the C7 witness. -/
def countriesC7 : List Country := [⟨"KHM", "Cambodia", 1⟩]

/-- Sex-disaggregated input of the C7 witness transform run. -/
def rowsC7w : List Row := [[("year", "2020"), ("dataset_name_l1", "litrate")]]

/-- Output of the C7 witness transform run: one record per input row. -/
def outC7w : List Row :=
  [[("iso3", "KHM"), ("country", "Cambodia"), ("province", ""),
    ("indicator", "litrate"), ("sub_indicator", ""), ("gender", ""),
    ("year", "2020"), ("value", ""), ("unit", ""), ("calculation_type", ""),
    ("definition", "")]]

/-- Witness for C7 amended: the admin_level-less row is rejected by the
concrete partition, and a concrete transform run keeps exactly its input
rows. -/
theorem sex_disagg_partition_spec_witness :
    rowC7 ∉ filterCsvByCountry countriesC7 [] [rowC7] "KHM" ∧
    outC7w.length = rowsC7w.length :=
  ⟨sex_disagg_partition_spec.1 countriesC7 [] [rowC7] "KHM" rowC7
     (by decide) (by decide),
   sex_disagg_partition_spec.2 [] rowsC7w "KHM" "Cambodia" outC7w rfl⟩
